import Mathlib

/-!
Verification of the MiniPL-RS interpreter pipeline against its
natural-language specification.

The development shallowly embeds the Rust sources:
  * `src/common/types.rs`     — value, type-name, operator and token types;
  * `src/parsing/parser.rs`   — recursive-descent statement parser and the
                                shunting-yard expression parser (with its
                                semicolon-delimited error recovery);
  * `src/parsing/lexer.rs` and `src/parsing/char_stream.rs` — the lexer;
  * `src/semantic/scope_tree.rs` and `src/semantic/type_checker.rs`;
  * `src/diagnostics/file_context.rs` — offset decoding and source quotes.

The tree-walking interpreter is modelled from the specification (§4.7):
the file `src/runtime/interpreter.rs` present in the tree is a stale draft
that does not build against the rest of the crate (it matches on
`Expression::Add`/`Sub`/… constructors that no longer exist in
`parsing/ast.rs`, calls an `Io::write_line` method absent from the
`runtime::io::Io` trait, and its `Interpreter::new` arity disagrees with
the call in `lib.rs`).  The integration tests in `tests/integration.rs`
pin down the behaviour of the real interpreter and agree with the
specification text used for the model.

Machine integers (`i32`) are modelled as `Int` with explicit wrap-around
(`% 2^32` recentred into `[-2^31, 2^31)`) where overflow matters.
Fallible code returns `Except`/`Option`; Rust panics and fuel exhaustion
are modelled as `Option.none` at the statement-driver level.
-/

namespace MiniPL

/-! ## Data model (`src/common/types.rs`) -/

/-- `TypeName` from `common/types.rs`. -/
inductive TypeName where
  | intType
  | stringType
  | boolType
deriving DecidableEq, Repr

/-- `LiteralValue` from `common/types.rs`: parse-time constants.
The `i32` payload is an `Int`; the lexer only produces values in
`[0, 2^31)` (checked by `str::parse::<i32>`). -/
inductive LiteralValue where
  | stringLit (s : String)
  | intLit (i : Int)
deriving DecidableEq, Repr

/-- `Value` from `common/types.rs`: runtime values. -/
inductive Value where
  | intV (i : Int)
  | stringV (s : String)
  | boolV (b : Bool)
deriving DecidableEq, Repr

/-- `impl From<LiteralValue> for Value` from `common/types.rs`. -/
def LiteralValue.toValue : LiteralValue → Value
  | .intLit i => .intV i
  | .stringLit s => .stringV s

/-- `Value::get_type` from `common/types.rs`. -/
def Value.getType : Value → TypeName
  | .intV _ => .intType
  | .stringV _ => .stringType
  | .boolV _ => .boolType

/-- `impl fmt::Display for Value` from `common/types.rs`: integers in
decimal with optional minus sign, strings raw, booleans lowercase. -/
def Value.display : Value → String
  | .stringV s => s
  | .intV i => toString i
  | .boolV b => if b then "true" else "false"

/-- `BinaryOperator` from `common/types.rs`. -/
inductive BinaryOperator where
  | add | sub | mul | div | lessThan | equal | and
deriving DecidableEq, Repr

/-- `UnaryOperator` from `common/types.rs`. -/
inductive UnaryOperator where
  | not
deriving DecidableEq, Repr

/-- `Operator` from `common/types.rs`. -/
inductive Operator where
  | binaryOperator (op : BinaryOperator)
  | unaryOperator (op : UnaryOperator)
deriving DecidableEq, Repr

/-- `Operator::get_precedence` from `common/types.rs` (`u8` result,
values 0–3, no overflow possible). -/
def Operator.getPrecedence : Operator → Nat
  | .unaryOperator .not => 3
  | .binaryOperator op =>
    match op with
    | .mul | .div => 2
    | .add | .sub | .and => 1
    | .lessThan | .equal => 0

/-- `Token` from `src/parsing/token.rs` (Lean keywords `var`, `for`,
`in`, `do`, `end` get a suffix). -/
inductive Token where
  | identifier (name : String)
  | literal (v : LiteralValue)
  | typeName (t : TypeName)
  | operator (op : Operator)
  | semicolon
  | lparen
  | rparen
  | colon
  | assign
  | print
  | read
  | varT
  | assert
  | forT
  | inT
  | range
  | doT
  | endT
  | endOfFile
deriving DecidableEq, Repr

/-- `TokenKind` from `src/parsing/token.rs`. -/
inductive TokenKind where
  | identifierK | literalK | typeK | operatorK | semicolonK | lparenK
  | rparenK | colonK | assignK | printK | readK | varK | assertK
  | forK | inK | rangeK | doK | endK | endOfFileK
deriving DecidableEq, Repr

/-- `Token::get_kind` from `src/parsing/token.rs`. -/
def Token.getKind : Token → TokenKind
  | .identifier _ => .identifierK
  | .literal _ => .literalK
  | .typeName _ => .typeK
  | .operator _ => .operatorK
  | .semicolon => .semicolonK
  | .colon => .colonK
  | .lparen => .lparenK
  | .rparen => .rparenK
  | .assign => .assignK
  | .print => .printK
  | .read => .readK
  | .varT => .varK
  | .assert => .assertK
  | .forT => .forK
  | .inT => .inK
  | .range => .rangeK
  | .doT => .doK
  | .endT => .endK
  | .endOfFile => .endOfFileK

/-- `TokenWithCtx` from `src/parsing/token.rs`. -/
structure TokenWithCtx where
  offset : Nat
  token : Token
deriving DecidableEq, Repr

/-! ## Error types (`src/common/errors.rs`) -/

/-- `CharStreamError` from `common/errors.rs`. -/
inductive CharStreamError where
  | endOfFile
deriving DecidableEq, Repr

/-- `LexerError` from `common/errors.rs`.  The lexer in `lexer.rs`
constructs `UnknownToken` without a payload, so the payload is dropped
here as well. -/
inductive LexerError where
  | outOfTokens
  | unknownToken
  | unknownEscapeCode (code : String)
  | unterminatedStringLiteral
  | invalidNumberLiteral
  | unterminatedComment
  | charStreamError (e : CharStreamError)
  | ioError (msg : String)
deriving DecidableEq, Repr

/-- `ParserError` from `common/errors.rs`. -/
inductive ParserError where
  | invalidBinaryExpression
  | unknownStatement (first : TokenKind)
  | unexpectedToken (expected : TokenKind) (was : TokenKind)
  | lexerError (e : LexerError)
  | missingRParen
  | incompleteExpression
deriving DecidableEq, Repr

/-- `ErrWithCtx<E>` from `common/errors.rs`: an error with the offset it
was reported at. -/
structure ErrWithCtx (ε : Type) where
  err : ε
  offset : Nat
deriving DecidableEq, Repr

/-- `ParserErrorWithCtx`. -/
abbrev PErr := ErrWithCtx ParserError

/-- `From<ErrWithCtx<LexerError>> for ErrWithCtx<ParserError>` from
`common/errors.rs`. -/
def lexToParserErr (e : ErrWithCtx LexerError) : PErr :=
  ⟨.lexerError e.err, e.offset⟩

/-! ## AST (`src/parsing/ast.rs`) -/

/-- `Expression` from `parsing/ast.rs`.  The boxed pair of a Rust
`BinaryOp` is flattened into two constructor arguments.  (`Variable`
must be renamed: `variable` is a Lean keyword.) -/
inductive Expression where
  | literal (v : LiteralValue)
  | var (name : String)
  | binaryOp (op : BinaryOperator) (left right : Expression)
  | unaryOp (op : UnaryOperator) (inner : Expression)
deriving DecidableEq, Repr

/-- `Statement` from `parsing/ast.rs`.  A `for` body is a list of
statements with their half-open source offset ranges
(`StatementWithCtx` is the triple `(start, end, statement)`). -/
inductive Statement where
  | declare (name : String) (typeOf : TypeName) (initial : Option Expression)
  | assign (name : String) (value : Expression)
  | forS (variableName : String) (fromE toE : Expression)
      (run : List (Nat × Nat × Statement))
  | print (e : Expression)
  | readS (name : String)
  | assert (e : Expression)

/-- `StatementWithCtx` from `parsing/ast.rs`: a statement with its
half-open source offset range `[start, end)`. -/
abbrev StatementWithCtx := Nat × Nat × Statement

/-- The statement of a `StatementWithCtx`. -/
def StatementWithCtx.statement (s : StatementWithCtx) : Statement := s.2.2

/-- The source position range of a `StatementWithCtx`. -/
def StatementWithCtx.sourcePosition (s : StatementWithCtx) : Nat × Nat :=
  (s.1, s.2.1)

/-! ## Token stream model

The parser consumes the `TokenStream` trait (`src/parsing/token_stream.rs`),
implemented by `BufferedLexer` (`src/parsing/lexer.rs`): one-token
lookahead over the character stream.  For the parser claims the stream is
modelled at this interface: a list of pending tokens followed by the tail
behaviour of the underlying lexer — either a persistent end-of-file
sentinel (`next_token` keeps returning `EndOfFile` at the input's end
offset once the characters are exhausted) or a persistent lexer error
(`BufferedLexer::peek` does not cache errors, and re-lexing the same
position fails the same way).  Each pending token carries the
character-stream offset right after its lexeme; `BufferedLexer::offset`
returns the buffered token's offset when one is buffered and the raw
character-stream offset otherwise, which the model reproduces with the
`lastEnd` field (the parser only reads `offset()` right after a `peek`
— buffered — or right after an `advance` — unbuffered). -/

/-- Tail behaviour of the token stream once `toks` is exhausted. -/
inductive StreamTail where
  | eof (offset : Nat)
  | lexErr (e : ErrWithCtx LexerError)
deriving DecidableEq, Repr

/-- The token stream state seen by the parser: pending tokens (each with
the character offset after its lexeme), the tail behaviour, and the
character-stream position after the last consumed token. -/
structure TokStream where
  toks : List (TokenWithCtx × Nat)
  tail : StreamTail
  lastEnd : Nat
deriving DecidableEq, Repr

/-- `TokenStream::peek` for the model. -/
def TokStream.peek : TokStream → Except (ErrWithCtx LexerError) TokenWithCtx
  | ⟨(t, _) :: _, _, _⟩ => .ok t
  | ⟨[], .eof off, _⟩ => .ok ⟨off, .endOfFile⟩
  | ⟨[], .lexErr e, _⟩ => .error e

/-- `TokenStream::advance` for the model (saturates at the end, like
`CharStream::advance`). -/
def TokStream.advanceT : TokStream → TokStream
  | ⟨(_, e) :: rest, tl, _⟩ => ⟨rest, tl, e⟩
  | ⟨[], tl, le⟩ => ⟨[], tl, le⟩

/-- `BufferedLexer::offset` with a buffered token: its offset.  The
parser reads this at a statement's start, right after the loop-head
`peek` buffered the token. -/
def TokStream.offsetT : TokStream → Nat
  | ⟨(t, _) :: _, _, _⟩ => t.offset
  | ⟨[], .eof off, _⟩ => off
  | ⟨[], .lexErr e, _⟩ => e.offset

/-! ## Expression parser (`Parser::parse_expression`, `src/parsing/parser.rs`)

A modified shunting yard: an `output` stack of expressions and an
`operators` stack of operators or left parentheses.  Lists are used with
the head as the stack top. -/

/-- `OpStackItem` (local enum inside `parse_expression`). -/
inductive OpStackItem where
  | op (o : Operator)
  | lparen
deriving DecidableEq, Repr

/-- `create_node` (local fn inside `parse_expression`): folds one
operator into the output stack.  A binary operator pops `right` first,
then `left`. -/
def createNode (operator : Operator) (output : List Expression) :
    Except ParserError (List Expression) :=
  match operator with
  | .binaryOperator op =>
    match output with
    | right :: left :: rest => .ok (.binaryOp op left right :: rest)
    | _ => .error .incompleteExpression
  | .unaryOperator op =>
    match output with
    | inner :: rest => .ok (.unaryOp op inner :: rest)
    | [] => .error .incompleteExpression

/-- The `RParen` arm's `pop_while`: fold operators into the output until
a `LParen` is on top (which is left on the stack; the caller pops it) or
the stack empties. -/
def popUntilLParen (operators : List OpStackItem) (output : List Expression) :
    Except ParserError (List OpStackItem × List Expression) :=
  match operators with
  | [] => .ok ([], output)
  | .lparen :: rest => .ok (.lparen :: rest, output)
  | .op o :: rest => do
    let output ← createNode o output
    popUntilLParen rest output

/-- The `Operator` arm's `pop_while`: fold stacked operators of strictly
higher precedence; stop at a `LParen` or at lower-or-equal precedence. -/
def popHigherPrec (o : Operator) (operators : List OpStackItem)
    (output : List Expression) :
    Except ParserError (List OpStackItem × List Expression) :=
  match operators with
  | [] => .ok ([], output)
  | .lparen :: rest => .ok (.lparen :: rest, output)
  | .op stackOp :: rest =>
    if stackOp.getPrecedence ≤ o.getPrecedence then
      .ok (.op stackOp :: rest, output)
    else do
      let output ← createNode stackOp output
      popHigherPrec o rest output

/-- The main loop of `parse_expression`.  Returns the output and
operator stacks at loop exit together with the unconsumed tokens and the
position after the last consumed token; errors carry the stream state at
the error (for recovery). -/
def shuntLoop (start : Nat) (tail : StreamTail) :
    List (TokenWithCtx × Nat) → Nat → List Expression → List OpStackItem →
    (Except PErr (List Expression × List OpStackItem)) ×
      List (TokenWithCtx × Nat) × Nat
  | [], le, output, operators =>
    match tail with
    | .eof _ => (.ok (output, operators), [], le)
    | .lexErr e => (.error (lexToParserErr e), [], le)
  | (t, te) :: rest, le, output, operators =>
    match t.token with
    | .literal v =>
      shuntLoop start tail rest te (.literal v :: output) operators
    | .identifier n =>
      shuntLoop start tail rest te (.var n :: output) operators
    | .lparen => shuntLoop start tail rest te output (.lparen :: operators)
    | .rparen =>
      match popUntilLParen operators output with
      | .error e => (.error ⟨e, start⟩, rest, te)
      | .ok (ops, out) => shuntLoop start tail rest te out ops.tail
    | .operator o =>
      match popHigherPrec o operators output with
      | .error e => (.error ⟨e, start⟩, rest, te)
      | .ok (ops, out) => shuntLoop start tail rest te out (.op o :: ops)
    | _ => (.ok (output, operators), (t, te) :: rest, le)

/-- The post-loop drain of `parse_expression`: `operators.iter().rev()`
walks from the stack top down; a remaining `LParen` is `MissingRParen`. -/
def drainOps (start : Nat) (operators : List OpStackItem)
    (output : List Expression) : Except PErr (List Expression) :=
  match operators with
  | [] => .ok output
  | .lparen :: _ => .error ⟨.missingRParen, start⟩
  | .op o :: rest =>
    match createNode o output with
    | .error e => .error ⟨e, start⟩
    | .ok output => drainOps start rest output

/-- `Parser::parse_expression` from `src/parsing/parser.rs`. -/
def parseExpression (s : TokStream) : (Except PErr Expression) × TokStream :=
  match s.peek with
  | .error e => (.error (lexToParserErr e), s)
  | .ok first =>
    let start := first.offset
    match shuntLoop start s.tail s.toks s.lastEnd [] [] with
    | (.error e, toks', le) => (.error e, ⟨toks', s.tail, le⟩)
    | (.ok (output, operators), toks', le) =>
      match drainOps start operators output with
      | .error e => (.error e, ⟨toks', s.tail, le⟩)
      | .ok output' =>
        match output' with
        | [e] => (.ok e, ⟨toks', s.tail, le⟩)
        | _ => (.error ⟨.invalidBinaryExpression, start⟩, ⟨toks', s.tail, le⟩)

/-! ## Statement parser (`src/parsing/parser.rs`)

Every routine threads the stream state also through errors, because the
Rust parser mutates its lexer in place and the recovery mechanism
continues from the post-error state.  The mutually recursive statement
routines (`parse_statement_list` → `parse_statement` → `parse_for` →
`parse_statement_list`) take a fuel parameter; `none` models fuel
exhaustion and never arises for sufficient fuel. -/

/-- `Parser::expect_eq`. -/
def expectEq (tok : Token) (s : TokStream) : (Except PErr Unit) × TokStream :=
  match s.peek with
  | .error e => (.error (lexToParserErr e), s)
  | .ok next =>
    if next.token = tok then (.ok (), s.advanceT)
    else (.error ⟨.unexpectedToken tok.getKind next.token.getKind, next.offset⟩, s)

/-- `Parser::expect_identifier`. -/
def expectIdentifier (s : TokStream) : (Except PErr String) × TokStream :=
  match s.peek with
  | .error e => (.error (lexToParserErr e), s)
  | .ok next =>
    match next.token with
    | .identifier name => (.ok name, s.advanceT)
    | other =>
      (.error ⟨.unexpectedToken .identifierK other.getKind, next.offset⟩, s)

/-- `Parser::expect_type_name`. -/
def expectTypeName (s : TokStream) : (Except PErr TypeName) × TokStream :=
  match s.peek with
  | .error e => (.error (lexToParserErr e), s)
  | .ok next =>
    match next.token with
    | .typeName t => (.ok t, s.advanceT)
    | other =>
      (.error ⟨.unexpectedToken .typeK other.getKind, next.offset⟩, s)

/-- `Parser::parse_print_statement`. -/
def parsePrintStatement (s : TokStream) : (Except PErr Statement) × TokStream :=
  match expectEq .print s with
  | (.error e, s) => (.error e, s)
  | (.ok _, s) =>
    match parseExpression s with
    | (.error e, s) => (.error e, s)
    | (.ok value, s) =>
      match expectEq .semicolon s with
      | (.error e, s) => (.error e, s)
      | (.ok _, s) => (.ok (.print value), s)

/-- `Parser::parse_read_statement`. -/
def parseReadStatement (s : TokStream) : (Except PErr Statement) × TokStream :=
  match expectEq .read s with
  | (.error e, s) => (.error e, s)
  | (.ok _, s) =>
    match expectIdentifier s with
    | (.error e, s) => (.error e, s)
    | (.ok identifier, s) =>
      match expectEq .semicolon s with
      | (.error e, s) => (.error e, s)
      | (.ok _, s) => (.ok (.readS identifier), s)

/-- `Parser::parse_decleration` (sic). -/
def parseDecleration (s : TokStream) : (Except PErr Statement) × TokStream :=
  match expectEq .varT s with
  | (.error e, s) => (.error e, s)
  | (.ok _, s) =>
    match expectIdentifier s with
    | (.error e, s) => (.error e, s)
    | (.ok name, s) =>
      match expectEq .colon s with
      | (.error e, s) => (.error e, s)
      | (.ok _, s) =>
        match expectTypeName s with
        | (.error e, s) => (.error e, s)
        | (.ok typeOf, s) =>
          match s.peek with
          | .error e => (.error (lexToParserErr e), s)
          | .ok next =>
            let cont := fun (initialValue : Option Expression) (s : TokStream) =>
              match expectEq .semicolon s with
              | (.error e, s) => (.error e, s)
              | (.ok _, s) =>
                ((.ok (.declare name typeOf initialValue) :
                    Except PErr Statement), s)
            if next.token = .assign then
              let s := s.advanceT
              match parseExpression s with
              | (.error e, s) => (.error e, s)
              | (.ok expr, s) => cont (some expr) s
            else
              cont none s

/-- `Parser::parse_assignment`. -/
def parseAssignment (s : TokStream) : (Except PErr Statement) × TokStream :=
  match expectIdentifier s with
  | (.error e, s) => (.error e, s)
  | (.ok identifier, s) =>
    match expectEq .assign s with
    | (.error e, s) => (.error e, s)
    | (.ok _, s) =>
      match parseExpression s with
      | (.error e, s) => (.error e, s)
      | (.ok value, s) =>
        match expectEq .semicolon s with
        | (.error e, s) => (.error e, s)
        | (.ok _, s) => (.ok (.assign identifier value), s)

/-- `Parser::parse_assertion`. -/
def parseAssertion (s : TokStream) : (Except PErr Statement) × TokStream :=
  match expectEq .assert s with
  | (.error e, s) => (.error e, s)
  | (.ok _, s) =>
    match parseExpression s with
    | (.error e, s) => (.error e, s)
    | (.ok assertion, s) =>
      match expectEq .semicolon s with
      | (.error e, s) => (.error e, s)
      | (.ok _, s) => (.ok (.assert assertion), s)

mutual
/-- `Parser::parse_for` (returns `ParserErrors`, i.e. an error list). -/
def parseFor (fuel : Nat) (s : TokStream) :
    Option ((Except (List PErr) Statement) × TokStream) :=
  match expectEq .forT s with
  | (.error e, s) => some (.error [e], s)
  | (.ok _, s) =>
    match expectIdentifier s with
    | (.error e, s) => some (.error [e], s)
    | (.ok variableName, s) =>
      match expectEq .inT s with
      | (.error e, s) => some (.error [e], s)
      | (.ok _, s) =>
        match parseExpression s with
        | (.error e, s) => some (.error [e], s)
        | (.ok fromE, s) =>
          match expectEq .range s with
          | (.error e, s) => some (.error [e], s)
          | (.ok _, s) =>
            match parseExpression s with
            | (.error e, s) => some (.error [e], s)
            | (.ok toE, s) =>
              match expectEq .doT s with
              | (.error e, s) => some (.error [e], s)
              | (.ok _, s) =>
                match parseStatementList fuel s with
                | none => none
                | some (.error es, s) => some (.error es, s)
                | some (.ok run, s) =>
                  match expectEq .endT s with
                  | (.error e, s) => some (.error [e], s)
                  | (.ok _, s) =>
                    match expectEq .forT s with
                    | (.error e, s) => some (.error [e], s)
                    | (.ok _, s) =>
                      match expectEq .semicolon s with
                      | (.error e, s) => some (.error [e], s)
                      | (.ok _, s) =>
                        some (.ok (.forS variableName fromE toE run), s)
termination_by (fuel, 1)

/-- `Parser::parse_statement`: dispatch on the first token. -/
def parseStatement (fuel : Nat) (s : TokStream) :
    Option ((Except (List PErr) Statement) × TokStream) :=
  match s.peek with
  | .error e => some (.error [lexToParserErr e], s)
  | .ok first =>
    match first.token with
    | .print =>
      match parsePrintStatement s with
      | (.error e, s) => some (.error [e], s)
      | (.ok st, s) => some (.ok st, s)
    | .read =>
      match parseReadStatement s with
      | (.error e, s) => some (.error [e], s)
      | (.ok st, s) => some (.ok st, s)
    | .varT =>
      match parseDecleration s with
      | (.error e, s) => some (.error [e], s)
      | (.ok st, s) => some (.ok st, s)
    | .assert =>
      match parseAssertion s with
      | (.error e, s) => some (.error [e], s)
      | (.ok st, s) => some (.ok st, s)
    | .identifier _ =>
      match parseAssignment s with
      | (.error e, s) => some (.error [e], s)
      | (.ok st, s) => some (.ok st, s)
    | .forT => parseFor fuel s
    | other =>
      some (.error [⟨.unknownStatement other.getKind, first.offset⟩], s)
termination_by (fuel, 2)

/-- `Parser::parse_statement_list`: parse statements until end-of-file
or the `end` keyword, recording each with its source position range. -/
def parseStatementList (fuel : Nat) (s : TokStream) :
    Option ((Except (List PErr) (List StatementWithCtx)) × TokStream) :=
  match fuel with
  | 0 => none
  | fuel + 1 =>
    match s.peek with
    | .error e => some (.error [lexToParserErr e], s)
    | .ok next =>
      if next.token = .endOfFile ∨ next.token = .endT then some (.ok [], s)
      else
        let start := s.offsetT
        match parseStatement fuel s with
        | none => none
        | some (.error es, s) => some (.error es, s)
        | some (.ok statement, s') =>
          let endO := s'.lastEnd
          match parseStatementList fuel s' with
          | none => none
          | some (.error es, s'') => some (.error es, s'')
          | some (.ok rest, s'') =>
            some (.ok ((start, endO, statement) :: rest), s'')
termination_by (fuel, 0)
end

/-- `Parser::try_recover` (impl of `TryRecover`): advance until a
semicolon is consumed; end-of-file or a lexer error fails recovery. -/
def tryRecover : TokStream → Bool × TokStream
  | ⟨[], tl, le⟩ => (false, ⟨[], tl, le⟩)
  | ⟨(t, te) :: rest, tl, le⟩ =>
    match t.token with
    | .semicolon => (true, ⟨rest, tl, te⟩)
    | .endOfFile => (false, ⟨(t, te) :: rest, tl, le⟩)
    | _ => tryRecover ⟨rest, tl, te⟩

/-- `Parser::parse_program`: parse the statement list, expect
end-of-file; on failure record the errors, recover past a semicolon and
keep parsing to accumulate further errors. -/
def parseProgram : Nat → TokStream →
    Option ((Except (List PErr) (List StatementWithCtx)) × TokStream)
  | 0, _ => none
  | fuel + 1, s =>
    match parseStatementList (fuel + 1) s with
    | none => none
    | some (.ok program, s') =>
      match expectEq .endOfFile s' with
      | (.error e, s'') => some (.error [e], s'')
      | (.ok _, s'') => some (.ok program, s'')
    | some (.error errors, s') =>
      match tryRecover s' with
      | (true, s'') =>
        match parseProgram fuel s'' with
        | none => none
        | some (.ok _, s''') => some (.error errors, s''')
        | some (.error inner, s''') => some (.error (errors ++ inner), s''')
      | (false, s'') => some (.error errors, s'')

/-! ## Character stream (`src/parsing/char_stream.rs`) -/

/-- `CharStream`: an offset cursor over the source characters. -/
structure CharStream where
  chars : List Char
  offset : Nat
deriving DecidableEq, Repr

/-- `CharStream::reached_end`. -/
def CharStream.reachedEnd (s : CharStream) : Bool :=
  s.chars.length ≤ s.offset

/-- `CharStream::peek`. -/
def CharStream.peekC (s : CharStream) : Except CharStreamError Char :=
  if h : s.offset < s.chars.length then .ok (s.chars.get ⟨s.offset, h⟩)
  else .error .endOfFile

/-- `CharStream::advance` (saturates at the end). -/
def CharStream.advanceC (s : CharStream) : CharStream :=
  ⟨s.chars, min s.chars.length (s.offset + 1)⟩

/-- `CharStream::next`: peek, and advance by one on success. -/
def CharStream.nextC (s : CharStream) : (Except CharStreamError Char) × CharStream :=
  match s.peekC with
  | .ok ch => (.ok ch, ⟨s.chars, s.offset + 1⟩)
  | .error e => (.error e, s)

/-- Loop body of `CharStream::advance_until`; the fuel is the number of
remaining characters, which bounds the iteration count exactly. -/
def advanceUntilAux (pred : Char → Bool) : Nat → CharStream → CharStream
  | 0, s => s
  | fuel + 1, s =>
    match s.peekC with
    | .error _ => s
    | .ok ch => if pred ch then s else advanceUntilAux pred fuel s.advanceC

/-- `CharStream::advance_until`. -/
def CharStream.advanceUntil (s : CharStream) (pred : Char → Bool) : CharStream :=
  advanceUntilAux pred (s.chars.length - s.offset) s

/-- `CharStream::take_until`: advance until `pred` holds and return the
consumed slice. -/
def CharStream.takeUntil (s : CharStream) (pred : Char → Bool) :
    List Char × CharStream :=
  let s' := s.advanceUntil pred
  ((s.chars.drop s.offset).take (s'.offset - s.offset), s')

/-! ## Lexer (`src/parsing/lexer.rs`, predicates from `src/parsing/util.rs`) -/

/-- `is_whitespace` from `parsing/util.rs`. -/
def isWhitespace (ch : Char) : Bool :=
  ch = ' ' ∨ ch = '\r' ∨ ch = '\n' ∨ ch = '\t'

/-- `is_number` from `parsing/util.rs`. -/
def isNumber (ch : Char) : Bool :=
  '0' ≤ ch ∧ ch ≤ '9'

/-- `is_letter` from `parsing/util.rs`: the Rust range pattern
`'A'...'z'` (which also admits the ASCII characters between `Z` and
`a`). -/
def isLetter (ch : Char) : Bool :=
  'A' ≤ ch ∧ ch ≤ 'z'

/-- `is_valid_in_identifier` from `parsing/util.rs`. -/
def isValidInIdentifier (c : Char) : Bool :=
  isLetter c ∨ isNumber c ∨ c = '_'

/-- `is_valid_identifier` from `parsing/util.rs`. -/
def isValidIdentifier (s : String) : Bool :=
  match s.toList with
  | [] => false
  | c :: rest => isLetter c && rest.all isValidInIdentifier

/-- The escape-character table inside `read_string_literal`. -/
def escapeChar : Char → Option Char
  | '\\' => some '\\'
  | '"' => some '"'
  | 'r' => some '\r'
  | 'n' => some '\n'
  | 't' => some '\t'
  | _ => none

/-- The character-consuming loop of `read_string_literal`.  Every
iteration consumes at least one character, so fuel = remaining + 1 is
exact; at fuel 0 the stream is necessarily exhausted, matching the
`UnterminatedStringLiteral` arm. -/
def readStringLoop : Nat → CharStream → List Char →
    Except LexerError (List Char × CharStream)
  | 0, _, _ => .error .unterminatedStringLiteral
  | fuel + 1, s, acc =>
    if s.reachedEnd then .error .unterminatedStringLiteral
    else
      match s.nextC with
      | (.error e, _) => .error (.charStreamError e)
      | (.ok c, s) =>
        if c = '\\' then
          match s.nextC with
          | (.error e, _) => .error (.charStreamError e)
          | (.ok esc, s) =>
            match escapeChar esc with
            | some ec => readStringLoop fuel s (acc ++ [ec])
            | none => .error (.unknownEscapeCode (String.singleton esc))
        else if c = '"' then .ok (acc, s)
        else readStringLoop fuel s (acc ++ [c])

/-- `read_string_literal` from `parsing/lexer.rs`. -/
def readStringLiteral (s : CharStream) : Except LexerError (Token × CharStream) :=
  match s.peekC with
  | .error e => .error (.charStreamError e)
  | .ok ch =>
    if ch ≠ '"' then .error .unknownToken
    else
      match readStringLoop (s.chars.length - s.offset + 1) s.advanceC [] with
      | .error e => .error e
      | .ok (chars, s) => .ok (.literal (.stringLit (String.mk chars)), s)

/-- The keyword table of `read_keyword_or_identifier` (Rust matches the
character slice; matching the packed string is equivalent). -/
def keywordToken (name : String) : Option Token :=
  if name = "print" then some .print
  else if name = "read" then some .read
  else if name = "int" then some (.typeName .intType)
  else if name = "bool" then some (.typeName .boolType)
  else if name = "string" then some (.typeName .stringType)
  else if name = "var" then some .varT
  else if name = "assert" then some .assert
  else if name = "for" then some .forT
  else if name = "in" then some .inT
  else if name = "do" then some .doT
  else if name = "end" then some .endT
  else none

/-- `read_keyword_or_identifier` from `parsing/lexer.rs`. -/
def readKeywordOrIdentifier (s : CharStream) : Except LexerError (Token × CharStream) :=
  let (chars, s) := s.takeUntil (fun c => ¬ isValidInIdentifier c)
  let name := String.mk chars
  match keywordToken name with
  | some tok => .ok (tok, s)
  | none =>
    if ¬ isValidIdentifier name then .error .unknownToken
    else .ok (.identifier name, s)

/-- `str::parse::<i32>` on a digit string: the value if it is a valid
non-empty decimal representation not exceeding `i32::MAX`. -/
def parseI32Digits (digits : List Char) : Option Int :=
  if digits = [] then none
  else
    let v : Nat := digits.foldl (fun acc c => acc * 10 + (c.toNat - '0'.toNat)) 0
    if v ≤ 2147483647 then some (v : Int) else none

/-- `read_number_literal` from `parsing/lexer.rs`. -/
def readNumberLiteral (s : CharStream) : Except LexerError (Token × CharStream) :=
  let (digits, s) := s.takeUntil (fun ch => ¬ isNumber ch)
  match parseI32Digits digits with
  | some i => .ok (.literal (.intLit i), s)
  | none => .error .invalidNumberLiteral

/-- `parse_single_char_token` from `parsing/lexer.rs`; `none` models the
`panic!` arm (unreachable behind the caller's guard). -/
def parseSingleCharToken : Char → Option Token
  | ';' => some .semicolon
  | '(' => some .lparen
  | ')' => some .rparen
  | '+' => some (.operator (.binaryOperator .add))
  | '-' => some (.operator (.binaryOperator .sub))
  | '*' => some (.operator (.binaryOperator .mul))
  | '/' => some (.operator (.binaryOperator .div))
  | '<' => some (.operator (.binaryOperator .lessThan))
  | '=' => some (.operator (.binaryOperator .equal))
  | '&' => some (.operator (.binaryOperator .and))
  | '!' => some (.operator (.unaryOperator .not))
  | _ => none

/-- The `/* … */` scanning loop inside `next_token`.  One character is
consumed per iteration, so fuel = remaining + 1 is exact; fuel 0 implies
the input is exhausted, matching `UnterminatedComment`. -/
def blockCommentLoop : Nat → Char → CharStream → Except LexerError CharStream
  | 0, _, _ => .error .unterminatedComment
  | fuel + 1, prev, input =>
    if input.reachedEnd then .error .unterminatedComment
    else
      match input.peekC with
      | .error e => .error (.charStreamError e)
      | .ok next =>
        let input := input.advanceC
        if prev = '*' ∧ next = '/' then .ok input
        else blockCommentLoop fuel next input

/-- `next_token` from `parsing/lexer.rs`.  The fuel only feeds the
recursive self-calls after a comment (each consumes input, so any fuel
above the source length is enough); `none` is fuel exhaustion or the
`panic!` inside `parse_single_char_token`. -/
def nextToken : Nat → CharStream → Option (Except LexerError (TokenWithCtx × CharStream))
  | 0, _ => none
  | fuel + 1, input =>
    let input := input.advanceUntil (fun ch => ¬ isWhitespace ch)
    if input.reachedEnd then some (.ok (⟨input.offset, .endOfFile⟩, input))
    else
      let offset := input.offset
      match input.peekC with
      | .error e => some (.error (.charStreamError e))
      | .ok first =>
        if first ∈ [';', '(', ')', '+', '-', '*', '<', '=', '&', '!'] then
          match parseSingleCharToken first with
          | some tok => some (.ok (⟨offset, tok⟩, input.advanceC))
          | none => none
        else if first = ':' then
          let input := input.advanceC
          match input.peekC with
          | .error e => some (.error (.charStreamError e))
          | .ok c =>
            if c = '=' then some (.ok (⟨offset, .assign⟩, input.advanceC))
            else some (.ok (⟨offset, .colon⟩, input))
        else if first = '.' then
          let input := input.advanceC
          match input.peekC with
          | .error e => some (.error (.charStreamError e))
          | .ok c =>
            if c = '.' then some (.ok (⟨offset, .range⟩, input.advanceC))
            else some (.error .unknownToken)
        else if isNumber first then
          match readNumberLiteral input with
          | .ok (tok, input) => some (.ok (⟨offset, tok⟩, input))
          | .error e => some (.error e)
        else if first = '"' then
          match readStringLiteral input with
          | .ok (tok, input) => some (.ok (⟨offset, tok⟩, input))
          | .error e => some (.error e)
        else if first = '/' then
          let input := input.advanceC
          match input.peekC with
          | .error e => some (.error (.charStreamError e))
          | .ok next =>
            if next = '/' then
              let input := input.advanceC.advanceUntil (fun ch => ch = '\n')
              nextToken fuel input
            else if next = '*' then
              let input := input.advanceC
              match input.peekC with
              | .error e => some (.error (.charStreamError e))
              | .ok prev =>
                let input := input.advanceC
                match blockCommentLoop (input.chars.length - input.offset + 1)
                    prev input with
                | .error e => some (.error e)
                | .ok input => nextToken fuel input
            else
              some (.ok (⟨offset, .operator (.binaryOperator .div)⟩, input))
        else
          match readKeywordOrIdentifier input with
          | .ok (tok, input) => some (.ok (⟨offset, tok⟩, input))
          | .error e => some (.error e)

/-! ## File context (`src/diagnostics/file_context.rs`) -/

/-- `FilePosition` (1-based row and column). -/
structure FilePosition where
  offset : Nat
  column : Nat
  row : Nat
deriving DecidableEq, Repr

/-- `FileContextSource`: per line, the offset at which it begins and its
text (the `file_name` field is not used by any claim). -/
structure FileContextSource where
  lines : List (Nat × String)
deriving DecidableEq, Repr

/-- Rust `str::lines`: split on LF, drop the trailing empty piece, and
strip one trailing CR from each line. -/
def rustLines (source : String) : List String :=
  let parts := source.splitOn "\n"
  let parts :=
    match parts.getLast? with
    | some "" => parts.dropLast
    | _ => parts
  parts.map (fun l => if l.endsWith "\r" then l.dropRight 1 else l)

/-- `FileContextSource::from_str`: the `scan` accumulating each line's
start offset (`offs + line.len() + 1`). -/
def FileContextSource.fromStr (source : String) : FileContextSource :=
  ⟨((rustLines source).foldl
      (fun (acc : List (Nat × String) × Nat) line =>
        (acc.1 ++ [(acc.2, line)], acc.2 + line.length + 1))
      ([], 0)).1⟩

/-- The linear row search of `decode_offset`, carrying the 0-based row
index. -/
def decodeOffsetAux (offset : Nat) : List (Nat × String) → Nat → Option FilePosition
  | [], _ => none
  | (firstIndex, content) :: rest, rowIndex =>
    if firstIndex ≤ offset ∧ offset ≤ firstIndex + content.length then
      some ⟨offset, offset - firstIndex + 1, rowIndex + 1⟩
    else decodeOffsetAux offset rest (rowIndex + 1)

/-- `FileContextSource::decode_offset`. -/
def FileContextSource.decodeOffset (fc : FileContextSource) (offset : Nat) :
    Option FilePosition :=
  decodeOffsetAux offset fc.lines 0

/-- `FileContextSource::get_line` (1-based row). -/
def FileContextSource.getLine (fc : FileContextSource) (row : Nat) :
    Option String :=
  (fc.lines.get? (row - 1)).map (·.2)

/-- `FileContextSource::get_range_lines` over the half-open offset range
`[a, b)`; `none` models the `expect` panics on invalid offsets or rows. -/
def FileContextSource.getRangeLines (fc : FileContextSource) (a b : Nat) :
    Option (List String) := do
  let start ← fc.decodeOffset a
  let stop ← fc.decodeOffset b
  (List.range' start.row (stop.row + 1 - start.row)).mapM fc.getLine

/-- `format!("{:4}", row)`: decimal, right-aligned with spaces to width
at least 4. -/
def padRow (row : Nat) : String :=
  let s := toString row
  if s.length < 4 then String.mk (List.replicate (4 - s.length) ' ') ++ s
  else s

/-- The fold inside `get_source_quote`: prefix each line with
`"[NNNN]  "` and a terminating LF, counting rows up from the start row. -/
def quoteFold : List String → Nat → String → String
  | [], _, acc => acc
  | x :: rest, row, acc =>
    quoteFold rest (row + 1) (acc ++ "[" ++ padRow row ++ "]  " ++ x ++ "\n")

/-- `FileContextSource::get_source_quote` over the half-open offset
range `[a, b)`. -/
def FileContextSource.getSourceQuote (fc : FileContextSource) (a b : Nat) :
    Option String := do
  let sourceLines ← fc.getRangeLines a b
  let pos ← fc.decodeOffset a
  some (quoteFold sourceLines pos.row "")

/-! ## Interpreter

Modelled from the spec: the tree-walking interpreter of §4.7 ("flat
environment `name → {type, value}`", default initialisation, `print`
writing the display form without a newline, `assert` writing
`"ASSERTION FAILED:\n"` followed by the source quote, the `for` loop
iterating from `from` to `to` inclusive).  The current interpreter
source is missing from the tree: `src/runtime/interpreter.rs` is a stale
draft that does not build against `parsing/ast.rs` or `runtime/io.rs`
(see the header comment).  The `Io` capability (`runtime/io.rs`:
`write`, `read_line`) is modelled by an output chunk list and an input
line list inside the state; the behaviour below agrees with the
integration tests in `tests/integration.rs`. -/

/-- Modelled from the spec: the type's default value (§3: `0`, `""`,
`false`). -/
def defaultValue : TypeName → Value
  | .intType => .intV 0
  | .stringType => .stringV ""
  | .boolType => .boolV false

/-- 32-bit two's-complement wrap-around, recentred into
`[-2^31, 2^31)`. -/
def wrap32 (n : Int) : Int :=
  (n + 2147483648) % 4294967296 - 2147483648

/-- Lexicographic order on character lists by character code
(the order `PartialOrd` derives for Rust `String`). -/
def listCharLt : List Char → List Char → Bool
  | [], [] => false
  | [], _ :: _ => true
  | _ :: _, [] => false
  | a :: as', b :: bs' =>
    if a < b then true
    else if b < a then false
    else listCharLt as' bs'

/-- String comparison used by `<` on strings. -/
def strLt (a b : String) : Bool :=
  listCharLt a.toList b.toList

/-- Modelled from the spec: comparison between runtime values of the
same variant (§3); across variants the checker forbids it and the model
returns `false` (the Rust `PartialOrd` derive likewise yields no
ordering). -/
def valueLt : Value → Value → Bool
  | .intV a, .intV b => a < b
  | .stringV a, .stringV b => strLt a b
  | .boolV a, .boolV b => ¬ a && b
  | _, _ => false

/-- Modelled from the spec: the interpreter state — the flat variable
environment plus the `Io` capability (§4.7, §5): written chunks in
order, and the remaining input lines. -/
structure InterpState where
  env : List (String × TypeName × Value)
  output : List String
  input : List String

/-- Environment lookup (most recent binding first). -/
def lookupEnv (env : List (String × TypeName × Value)) (name : String) :
    Option (TypeName × Value) :=
  match env with
  | [] => none
  | (n, tv) :: rest => if n = name then some tv else lookupEnv rest name

/-- Modelled from the spec: binary operator evaluation following the
type table of §4.6/§4.7.  Integer `+`, `-`, `*` wrap (two's-complement,
§9); `/` truncates toward zero and is undefined on 0 (`none` models the
Rust panic); `=` is derived equality; `<` is `valueLt`; `&` is boolean
conjunction.  Untypeable combinations are `none` (the trusted-checker
panic). -/
def applyBinary : BinaryOperator → Value → Value → Option Value
  | .add, .intV a, .intV b => some (.intV (wrap32 (a + b)))
  | .add, .stringV a, .stringV b => some (.stringV (a ++ b))
  | .sub, .intV a, .intV b => some (.intV (wrap32 (a - b)))
  | .mul, .intV a, .intV b => some (.intV (wrap32 (a * b)))
  | .div, .intV a, .intV b =>
    if b = 0 then none else some (.intV (wrap32 (Int.tdiv a b)))
  | .equal, a, b => some (.boolV (a = b))
  | .lessThan, a, b => some (.boolV (valueLt a b))
  | .and, .boolV a, .boolV b => some (.boolV (a && b))
  | _, _, _ => none

/-- Modelled from the spec: expression evaluation (§4.7): literals cast
to runtime values, variables read the environment, binary operators
evaluate left then right, `!` negates a boolean. -/
def evalExpr (env : List (String × TypeName × Value)) : Expression → Option Value
  | .literal v => some v.toValue
  | .var name => (lookupEnv env name).map (·.2)
  | .binaryOp op l r => do
    let lv ← evalExpr env l
    let rv ← evalExpr env r
    applyBinary op lv rv
  | .unaryOp .not e => do
    match ← evalExpr env e with
    | .boolV b => some (.boolV (¬ b))
    | _ => none

/-- Modelled from the spec: `read` into an `int` target parses the line
as signed decimal (§4.7); `none` on failure (a fatal runtime error). -/
def parseIntSigned (line : String) : Option Int :=
  match line.toList with
  | '-' :: rest => (parseI32Digits rest).map (fun n => -n)
  | chars => parseI32Digits chars

/-- Modelled from the spec: the inclusive iteration range of a `for`
loop — `from` to `to` inclusive, empty when `to < from` (§4.7, §8). -/
def rangeIncl (a b : Int) : List Int :=
  (List.range (b + 1 - a).toNat).map (fun (k : Nat) => a + (k : Int))

mutual
/-- Modelled from the spec: execution of one statement (§4.7).  `fc` is
the file-context capability the interpreter holds for assertion
diagnostics; `a`/`b` are the statement's source position range.  `none`
models fatal runtime errors (which the type checker is trusted to
rule out). -/
def execStatement (fc : FileContextSource) :
    Nat → Nat → Statement → InterpState → Option InterpState
  | _, _, .declare name typeOf initial, st =>
    match initial with
    | some e =>
      (evalExpr st.env e).map fun v =>
        { st with env := (name, typeOf, v) :: st.env }
    | none =>
      some { st with env := (name, typeOf, defaultValue typeOf) :: st.env }
  | _, _, .assign name e, st => do
    let v ← evalExpr st.env e
    let (t, _) ← lookupEnv st.env name
    some { st with env := (name, t, v) :: st.env }
  | _, _, .print e, st =>
    (evalExpr st.env e).map fun v =>
      { st with output := st.output ++ [v.display] }
  | _, _, .readS name, st =>
    match st.input with
    | [] => none
    | line :: rest => do
      let (t, _) ← lookupEnv st.env name
      match t with
      | .stringType =>
        some { st with env := (name, t, .stringV line) :: st.env, input := rest }
      | .intType => do
        let i ← parseIntSigned line
        some { st with env := (name, t, .intV i) :: st.env, input := rest }
      | .boolType => none
  | a, b, .assert e, st =>
    match evalExpr st.env e with
    | some (.boolV true) => some st
    | some (.boolV false) =>
      (fc.getSourceQuote a b).map fun q =>
        { st with output := st.output ++ ["ASSERTION FAILED:\n" ++ q] }
    | _ => none
  | _, _, .forS v fromE toE run, st =>
    match evalExpr st.env fromE, evalExpr st.env toE with
    | some (.intV a), some (.intV b) => execForLoop fc v run (rangeIncl a b) st
    | _, _ => none

/-- Modelled from the spec: the `for` iteration — assign the next index
to the loop variable (keeping its declared type), run the body, and
continue with the rest of the indices. -/
def execForLoop (fc : FileContextSource) (v : String)
    (run : List StatementWithCtx) :
    List Int → InterpState → Option InterpState
  | [], st => some st
  | i :: rest, st => do
    let (t, _) ← lookupEnv st.env v
    let st' ← execBlock fc run { st with env := (v, t, .intV i) :: st.env }
    execForLoop fc v run rest st'

/-- Modelled from the spec: execution of a statement list in order. -/
def execBlock (fc : FileContextSource) :
    List StatementWithCtx → InterpState → Option InterpState
  | [], st => some st
  | (a, b, stmt) :: rest, st => do
    let st' ← execStatement fc a b stmt st
    execBlock fc rest st'
end

/-- Modelled from the spec: running a program on an initial state. -/
def execProgram (fc : FileContextSource) (program : List StatementWithCtx)
    (st : InterpState) : Option InterpState :=
  execBlock fc program st

/-! ## Scope tree (`src/semantic/scope_tree.rs`)

Scopes are kept in an association list keyed by `ScopeKey`; each scope's
symbol table is an association list with unique names (`HashMap`
semantics: `define_symbol` replaces).  The `children` set and the
`scope_symbols_cache` only exist for cache invalidation and are
semantically transparent: `get_symbols_in_scope` is embedded directly as
the `traverse_symbols_in_scope` computation it caches (parent symbols
first, overridden by the scope's own — i.e. the nearest binding wins). -/

/-- `Symbol` from `src/semantic/types.rs`. -/
structure Symbol where
  typeOf : TypeName
  isMutable : Bool
deriving DecidableEq, Repr

/-- `Scope` (the `children` set, used only for cache invalidation, is
omitted). -/
structure Scope where
  key : Nat
  parent : Nat
  symbols : List (String × Symbol)
deriving DecidableEq, Repr

/-- `ScopeTree`. -/
structure ScopeTree where
  scopes : List (Nat × Scope)
  nextScopeId : Nat
deriving DecidableEq, Repr

/-- Association list lookup (first match). -/
def lookupAssoc {α : Type} (entries : List (String × α)) (name : String) :
    Option α :=
  match entries with
  | [] => none
  | (n, a) :: rest => if n = name then some a else lookupAssoc rest name

/-- Lookup in the scope association list. -/
def findScopeAux : List (Nat × Scope) → Nat → Option Scope
  | [], _ => none
  | (k, sc) :: rest, key => if k = key then some sc else findScopeAux rest key

/-- `self.scopes.get(&key)`. -/
def ScopeTree.findScope (t : ScopeTree) (key : Nat) : Option Scope :=
  findScopeAux t.scopes key

/-- `ScopeTree::add_new_scope`: allocate a fresh key and link to the
parent. -/
def ScopeTree.addNewScope (t : ScopeTree) (parentKey : Nat) :
    Nat × ScopeTree :=
  let key := t.nextScopeId
  (key, ⟨t.scopes ++ [(key, ⟨key, parentKey, []⟩)], key + 1⟩)

/-- `ScopeTree::new`: the tree containing only the global scope (key 0,
its own parent). -/
def ScopeTree.new : ScopeTree :=
  (ScopeTree.addNewScope ⟨[], 0⟩ 0).2

/-- `Scope::get_parent_key`: `None` when the scope is its own parent
(the global root). -/
def Scope.getParentKey (sc : Scope) : Option Nat :=
  if sc.key = sc.parent then none else some sc.parent

/-- `traverse_symbols_in_scope` / `add_symbols`: the visible symbols of
a scope as an association list — own symbols first (they override the
parent's), then the parent chain.  The fuel bounds the parent walk; the
number of scopes suffices for every tree built through the API. -/
def symbolsInScope (t : ScopeTree) : Nat → Nat → List (String × Symbol)
  | 0, _ => []
  | fuel + 1, key =>
    match t.findScope key with
    | none => []
    | some sc =>
      match sc.getParentKey with
      | none => sc.symbols
      | some parent => sc.symbols ++ symbolsInScope t fuel parent

/-- `ScopeTree::get_symbol`: nearest visible binding of `name` from
`scope` up the parent chain. -/
def ScopeTree.getSymbol (t : ScopeTree) (scope : Nat) (name : String) :
    Option Symbol :=
  lookupAssoc (symbolsInScope t t.scopes.length scope) name

/-- Update the one scope with the given key (scope keys are unique, as
`add_new_scope` always allocates a fresh id). -/
def defineSymbolAux (scopeKey : Nat) (name : String) (symbol : Symbol) :
    List (Nat × Scope) → List (Nat × Scope)
  | [] => []
  | (k, sc) :: rest =>
    if k = scopeKey then
      (k, ⟨sc.key, sc.parent,
        (name, symbol) :: sc.symbols.filter (fun p => ¬ p.1 = name)⟩) :: rest
    else (k, sc) :: defineSymbolAux scopeKey name symbol rest

/-- `ScopeTree::define_symbol`: insert (or replace, matching `HashMap`
key semantics) `name` in the given scope's own table. -/
def ScopeTree.defineSymbol (t : ScopeTree) (scopeKey : Nat) (name : String)
    (symbol : Symbol) : ScopeTree :=
  ⟨defineSymbolAux scopeKey name symbol t.scopes, t.nextScopeId⟩

/-- The defining scope of the nearest visible binding (the `ScopeKey`
stored in the `get_symbols_in_scope` map, used by `get_symbol_mut`). -/
def symbolOwner (t : ScopeTree) : Nat → Nat → String → Option Nat
  | 0, _, _ => none
  | fuel + 1, key, name =>
    match t.findScope key with
    | none => none
    | some sc =>
      if (lookupAssoc sc.symbols name).isSome then some key
      else
        match sc.getParentKey with
        | none => none
        | some parent => symbolOwner t fuel parent name

/-- `TypeCheckingContext::set_variable_mutability` via
`ScopeTree::get_symbol_mut`: toggle the flag on the binding in its
defining scope; `none` models the `expect` panic when the symbol is
missing. -/
def setVariableMutability (t : ScopeTree) (scope : Nat) (name : String)
    (isMutable : Bool) : Option ScopeTree :=
  match symbolOwner t t.scopes.length scope name with
  | none => none
  | some owner =>
    some ⟨t.scopes.map fun (k, sc) =>
        if k = owner then
          (k, ⟨sc.key, sc.parent,
            sc.symbols.map fun (n, sym) =>
              if n = name then (n, ⟨sym.typeOf, isMutable⟩) else (n, sym)⟩)
        else (k, sc),
      t.nextScopeId⟩

/-! ## Type checker (`src/semantic/type_checker.rs`) -/

/-- `TypeError`. -/
inductive TypeError where
  | redeclaredIdentifier (name : String)
  | undeclaredIdentifier (name : String)
  | invalidAssignment (name : String) (was newType : TypeName)
  | incompatibleTypes (expected was : TypeName)
  | invalidBinaryOp (op : BinaryOperator) (left right : TypeName)
  | invalidUnaryOp (op : UnaryOperator) (inner : TypeName)
  | printArgumentError (t : TypeName)
  | readArgumentError (t : TypeName)
  | assertArgumentError (t : TypeName)
  | assignToImmutable (name : String)
deriving DecidableEq, Repr

/-- `TypeCheckingContext::get_literal_type`. -/
def getLiteralType : LiteralValue → TypeName
  | .stringLit _ => .stringType
  | .intLit _ => .intType

/-- `TypeCheckingContext::evaluate_variable_type`. -/
def evaluateVariableType (ctx : ScopeTree) (scope : Nat) (v : String) :
    Except TypeError TypeName :=
  match ctx.getSymbol scope v with
  | some symbol => .ok symbol.typeOf
  | none => .error (.undeclaredIdentifier v)

/-- `TypeCheckingContext::evaluate_expression_type`: the operator type
table of §4.6. -/
def evaluateExpressionType (ctx : ScopeTree) (scope : Nat) :
    Expression → Except TypeError TypeName
  | .literal lit => .ok (getLiteralType lit)
  | .var v => evaluateVariableType ctx scope v
  | .binaryOp op l r => do
    let left ← evaluateExpressionType ctx scope l
    let right ← evaluateExpressionType ctx scope r
    match op, left, right with
    | .add, .intType, .intType => .ok .intType
    | .sub, .intType, .intType => .ok .intType
    | .mul, .intType, .intType => .ok .intType
    | .div, .intType, .intType => .ok .intType
    | .add, .stringType, .stringType => .ok .stringType
    | .equal, x, y => if x = y then .ok .boolType else .error (.invalidBinaryOp .equal x y)
    | .lessThan, x, y => if x = y then .ok .boolType else .error (.invalidBinaryOp .lessThan x y)
    | .and, .boolType, .boolType => .ok .boolType
    | op, left, right => .error (.invalidBinaryOp op left right)
  | .unaryOp op p => do
    let inner ← evaluateExpressionType ctx scope p
    match op, inner with
    | .not, .boolType => .ok .boolType
    | op, inner => .error (.invalidUnaryOp op inner)

/-- `TypeCheckingContext::assert_types_equal`. -/
def assertTypesEqual (expected is' : TypeName) : Except TypeError Unit :=
  if expected ≠ is' then .error (.incompatibleTypes expected is')
  else .ok ()

/-- `TypeCheckingContext::assert_mutable`; `none` models the `expect`
panic when the symbol is undefined. -/
def assertMutable (ctx : ScopeTree) (scope : Nat) (name : String) :
    Option (Except TypeError Unit) :=
  match ctx.getSymbol scope name with
  | none => none
  | some symbol =>
    if ¬ symbol.isMutable then some (.error (.assignToImmutable name))
    else some (.ok ())

mutual
/-- `TypeCheckingContext::type_check_statement`.  The context (scope
tree) is threaded functionally; `none` models the `expect` panics. -/
def typeCheckStatement (ctx : ScopeTree) (scope : Nat) :
    Statement → Option (Except TypeError ScopeTree)
  | .declare name typeOf initial =>
    if (ctx.getSymbol scope name).isSome then
      some (.error (.redeclaredIdentifier name))
    else
      match initial with
      | some initialValue =>
        match evaluateExpressionType ctx scope initialValue with
        | .error e => some (.error e)
        | .ok initialValueType =>
          match assertTypesEqual typeOf initialValueType with
          | .error e => some (.error e)
          | .ok _ =>
            some (.ok (ctx.defineSymbol scope name ⟨typeOf, true⟩))
      | none => some (.ok (ctx.defineSymbol scope name ⟨typeOf, true⟩))
  | .assign name value =>
    match evaluateVariableType ctx scope name with
    | .error e => some (.error e)
    | .ok variableType =>
      match evaluateExpressionType ctx scope value with
      | .error e => some (.error e)
      | .ok valueType =>
        match assertTypesEqual variableType valueType with
        | .error e => some (.error e)
        | .ok _ =>
          match assertMutable ctx scope name with
          | none => none
          | some (.error e) => some (.error e)
          | some (.ok _) => some (.ok ctx)
  | .print e =>
    match evaluateExpressionType ctx scope e with
    | .error err => some (.error err)
    | .ok .intType => some (.ok ctx)
    | .ok .stringType => some (.ok ctx)
    | .ok .boolType => some (.error (.printArgumentError .boolType))
  | .readS name =>
    match evaluateVariableType ctx scope name with
    | .error err => some (.error err)
    | .ok .intType => some (.ok ctx)
    | .ok .stringType => some (.ok ctx)
    | .ok .boolType => some (.error (.readArgumentError .boolType))
  | .assert e =>
    match evaluateExpressionType ctx scope e with
    | .error err => some (.error err)
    | .ok .boolType => some (.ok ctx)
    | .ok other => some (.error (.assertArgumentError other))
  | .forS variableName fromE toE run =>
    let (innerScope, ctx) := ctx.addNewScope scope
    match evaluateVariableType ctx innerScope variableName with
    | .error e => some (.error e)
    | .ok varType =>
      match assertTypesEqual .intType varType with
      | .error e => some (.error e)
      | .ok _ =>
        match assertMutable ctx innerScope variableName with
        | none => none
        | some (.error e) => some (.error e)
        | some (.ok _) =>
          match evaluateExpressionType ctx innerScope fromE with
          | .error e => some (.error e)
          | .ok fromType =>
            match assertTypesEqual .intType fromType with
            | .error e => some (.error e)
            | .ok _ =>
              match evaluateExpressionType ctx innerScope toE with
              | .error e => some (.error e)
              | .ok toType =>
                match assertTypesEqual .intType toType with
                | .error e => some (.error e)
                | .ok _ =>
                  match setVariableMutability ctx innerScope variableName false with
                  | none => none
                  | some ctx =>
                    match typeCheckBlock ctx innerScope run with
                    | none => none
                    | some (.error e) => some (.error e)
                    | some (.ok ctx) =>
                      match setVariableMutability ctx innerScope variableName true with
                      | none => none
                      | some ctx => some (.ok ctx)

/-- The `for` arm's loop over the body statements (fail-fast via `?`). -/
def typeCheckBlock (ctx : ScopeTree) (scope : Nat) :
    List StatementWithCtx → Option (Except TypeError ScopeTree)
  | [] => some (.ok ctx)
  | (_, _, stmt) :: rest =>
    match typeCheckStatement ctx scope stmt with
    | none => none
    | some (.error e) => some (.error e)
    | some (.ok ctx) => typeCheckBlock ctx scope rest
end

/-- `type_check`: check every statement in the global scope (key 0) of a
fresh context, stopping at the first error. -/
def typeCheck (program : List StatementWithCtx) :
    Option (Except TypeError ScopeTree) :=
  typeCheckBlock ScopeTree.new 0 program

mutual
/-- Whether executing the statement can rebind `x` in the environment
(declaration, assignment, `read`, or a `for` loop over `x` or whose body
rebinds `x`). -/
def stmtWritesVar (x : String) : Statement → Bool
  | .declare n _ _ => n = x
  | .assign n _ => n = x
  | .readS n => n = x
  | .print _ => false
  | .assert _ => false
  | .forS v _ _ run => v = x || blockWritesVar x run

/-- `stmtWritesVar` over a statement list. -/
def blockWritesVar (x : String) : List StatementWithCtx → Bool
  | [] => false
  | (_, _, stmt) :: rest => stmtWritesVar x stmt || blockWritesVar x rest
end

/-- Whether `name` is bound in `key`'s scope or in any ancestor on the
visible chain (the defining scope exists). -/
def boundOnChain (t : ScopeTree) (scope : Nat) (name : String) : Bool :=
  (symbolOwner t t.scopes.length scope name).isSome

/-!
# Theorems

One principal theorem per claim (C1–C10 of the specification review),
with shared helper lemmas first.
-/

/-- Helper: `lookupEnv` skips a binding with a different name. -/
theorem lookupEnv_cons_ne {n x : String} {tv : TypeName × Value}
    {env : List (String × TypeName × Value)} (h : n ≠ x) :
    lookupEnv ((n, tv) :: env) x = lookupEnv env x := by
  simp [lookupEnv, h]

/-- C1: claimed — two binary operators of the same precedence group
left-associatively (`BinaryOp(op2, BinaryOp(op1, a, b), c)`).  The code
does the opposite: `pop_while` folds a stacked operator only when its
precedence is strictly higher, so at equal precedence the earlier
operator stays on the stack and the post-loop drain folds the later
operator first.  Amended claim (proved): for any two binary operators of
equal precedence, `parse_expression` groups them right-associatively —
the AST is `BinaryOp(op1, a, BinaryOp(op2, b, c))`. -/
theorem c1_same_precedence_right_assoc
    (op1 op2 : BinaryOperator)
    (h : (Operator.binaryOperator op1).getPrecedence =
      (Operator.binaryOperator op2).getPrecedence)
    (v1 v2 v3 : LiteralValue) (o1 o2 o3 o4 o5 e1 e2 e3 e4 e5 k le : Nat) :
    parseExpression
      ⟨[(⟨o1, .literal v1⟩, e1), (⟨o2, .operator (.binaryOperator op1)⟩, e2),
        (⟨o3, .literal v2⟩, e3), (⟨o4, .operator (.binaryOperator op2)⟩, e4),
        (⟨o5, .literal v3⟩, e5)], .eof k, le⟩ =
      (.ok (.binaryOp op1 (.literal v1)
        (.binaryOp op2 (.literal v2) (.literal v3))), ⟨[], .eof k, e5⟩) := by
  simp [parseExpression, TokStream.peek, shuntLoop, popHigherPrec, drainOps,
    createNode, h]

/-- C1: counterexample to the claim as stated — the token sequence of
`1 - 2 - 3` parses to `Sub(1, Sub(2, 3))`, not to the claimed
`Sub(Sub(1, 2), 3)`. -/
theorem c1_counterexample :
    parseExpression
      ⟨[(⟨0, .literal (.intLit 1)⟩, 1),
        (⟨2, .operator (.binaryOperator .sub)⟩, 3),
        (⟨4, .literal (.intLit 2)⟩, 5),
        (⟨6, .operator (.binaryOperator .sub)⟩, 7),
        (⟨8, .literal (.intLit 3)⟩, 9)], .eof 9, 0⟩ =
      (.ok (.binaryOp .sub (.literal (.intLit 1))
        (.binaryOp .sub (.literal (.intLit 2)) (.literal (.intLit 3)))),
        ⟨[], .eof 9, 9⟩) ∧
    (parseExpression
      ⟨[(⟨0, .literal (.intLit 1)⟩, 1),
        (⟨2, .operator (.binaryOperator .sub)⟩, 3),
        (⟨4, .literal (.intLit 2)⟩, 5),
        (⟨6, .operator (.binaryOperator .sub)⟩, 7),
        (⟨8, .literal (.intLit 3)⟩, 9)], .eof 9, 0⟩).1 ≠
      .ok (.binaryOp .sub
        (.binaryOp .sub (.literal (.intLit 1)) (.literal (.intLit 2)))
        (.literal (.intLit 3))) := by
  refine ⟨rfl, ?_⟩
  show (Except.ok (.binaryOp .sub (.literal (.intLit 1))
    (.binaryOp .sub (.literal (.intLit 2)) (.literal (.intLit 3)))) :
      Except PErr Expression) ≠ _
  simp

/-- C1: witness — the amended theorem applied to `1 - 2 - 3`. -/
theorem c1_witness :
    (Operator.binaryOperator .sub).getPrecedence =
      (Operator.binaryOperator .sub).getPrecedence ∧
    parseExpression
      ⟨[(⟨0, .literal (.intLit 1)⟩, 1),
        (⟨2, .operator (.binaryOperator .sub)⟩, 3),
        (⟨4, .literal (.intLit 2)⟩, 5),
        (⟨6, .operator (.binaryOperator .sub)⟩, 7),
        (⟨8, .literal (.intLit 3)⟩, 9)], .eof 9, 0⟩ =
      (.ok (.binaryOp .sub (.literal (.intLit 1))
        (.binaryOp .sub (.literal (.intLit 2)) (.literal (.intLit 3)))),
        ⟨[], .eof 9, 9⟩) :=
  ⟨rfl, c1_same_precedence_right_assoc .sub .sub rfl _ _ _ 0 2 4 6 8 1 3 5 7 9 9 0⟩

/-- C4: claimed — a right parenthesis with no matching `LParen` on the
operator stack makes `parse_expression` return an error.  The code
instead folds whatever operators are stacked, consumes the parenthesis
(`operators.pop()` on an emptied stack is a no-op) and keeps parsing;
the `MissingRParen` drain error only fires for an unclosed `LParen`.
Amended claim (proved): an `RParen` without a matching `LParen` is
consumed and ignored — for any binary operators `op1`, `op2`,
`a op1 b ) op2 c` parses successfully to
`BinaryOp(op2, BinaryOp(op1, a, b), c)`. -/
theorem c4_unmatched_rparen_ignored
    (op1 op2 : BinaryOperator) (v1 v2 v3 : LiteralValue)
    (o1 o2 o3 o4 o5 o6 e1 e2 e3 e4 e5 e6 k le : Nat) :
    parseExpression
      ⟨[(⟨o1, .literal v1⟩, e1), (⟨o2, .operator (.binaryOperator op1)⟩, e2),
        (⟨o3, .literal v2⟩, e3), (⟨o4, .rparen⟩, e4),
        (⟨o5, .operator (.binaryOperator op2)⟩, e5),
        (⟨o6, .literal v3⟩, e6)], .eof k, le⟩ =
      (.ok (.binaryOp op2 (.binaryOp op1 (.literal v1) (.literal v2))
        (.literal v3)), ⟨[], .eof k, e6⟩) := by
  simp [parseExpression, TokStream.peek, shuntLoop, popHigherPrec,
    popUntilLParen, drainOps, createNode, bind, Except.bind, List.tail]

/-- C4: counterexample to the claim as stated — on the token sequence of
`1 + 2 ) * 3` the parser does not error: it consumes the unmatched
parenthesis and returns `Mul(Add(1, 2), 3)` with the whole input
consumed. -/
theorem c4_counterexample :
    parseExpression
      ⟨[(⟨0, .literal (.intLit 1)⟩, 1),
        (⟨2, .operator (.binaryOperator .add)⟩, 3),
        (⟨4, .literal (.intLit 2)⟩, 5),
        (⟨6, .rparen⟩, 7),
        (⟨8, .operator (.binaryOperator .mul)⟩, 9),
        (⟨10, .literal (.intLit 3)⟩, 11)], .eof 11, 0⟩ =
      (.ok (.binaryOp .mul
        (.binaryOp .add (.literal (.intLit 1)) (.literal (.intLit 2)))
        (.literal (.intLit 3))), ⟨[], .eof 11, 11⟩) := rfl

/-- Helper: `peek` on a stream whose cursor sits on the last character. -/
theorem peekC_of_last {s : CharStream} {c : Char}
    (h1 : s.chars.length = s.offset + 1) (h2 : s.chars[s.offset]? = some c) :
    s.peekC = .ok c := by
  simp [CharStream.peekC]
  have hlt : s.offset < s.chars.length := by omega
  rw [dif_pos hlt]
  have := List.getElem?_eq_getElem hlt
  rw [h2] at this
  simp_all [List.get_eq_getElem]

/-- Helper: `advance_until` does not move when the predicate already
holds at the cursor. -/
theorem advanceUntil_stop (p : Char → Bool) {s : CharStream} {c : Char}
    (hpeek : s.peekC = .ok c) (hp : p c = true) (f : Nat) :
    advanceUntilAux p f s = s := by
  cases f with
  | zero => rfl
  | succ n => simp [advanceUntilAux, hpeek, hp]

/-- Helper: advancing off the last character makes `peek` fail with
`EndOfFile`. -/
theorem advanceC_peek_eof {s : CharStream}
    (h1 : s.chars.length = s.offset + 1) :
    s.advanceC.peekC = .error .endOfFile := by
  simp [CharStream.advanceC, CharStream.peekC, h1]

/-- Helper: a stream on its last character has not reached the end. -/
theorem reachedEnd_false {s : CharStream}
    (h1 : s.chars.length = s.offset + 1) :
    s.reachedEnd = false := by
  simp [CharStream.reachedEnd]; omega

/-- C9: when the cursor sits on a final `':'` (no character after it),
`next_token` does not return `Colon`: the one-character lookahead after
consuming the `':'` hits end-of-file and the error propagates as
`LexerError::CharStreamError(EndOfFile)`; the same holds for a trailing
`'/'` (no `Div` token) and a trailing `'.'`. -/
theorem c9_trailing_lookahead_eof :
    (∀ (s : CharStream) (f : Nat), s.chars.length = s.offset + 1 →
      s.chars[s.offset]? = some ':' →
      nextToken (f + 1) s = some (.error (.charStreamError .endOfFile))) ∧
    (∀ (s : CharStream) (f : Nat), s.chars.length = s.offset + 1 →
      s.chars[s.offset]? = some '/' →
      nextToken (f + 1) s = some (.error (.charStreamError .endOfFile))) ∧
    (∀ (s : CharStream) (f : Nat), s.chars.length = s.offset + 1 →
      s.chars[s.offset]? = some '.' →
      nextToken (f + 1) s = some (.error (.charStreamError .endOfFile))) := by
  refine ⟨?_, ?_, ?_⟩ <;> intro s f h1 h2
  · have hpeek := peekC_of_last h1 h2
    have hstop := advanceUntil_stop (fun ch => ¬ isWhitespace ch) hpeek
      (by decide) (s.chars.length - s.offset)
    simp only [nextToken, CharStream.advanceUntil, hstop, reachedEnd_false h1,
      hpeek]
    simp [advanceC_peek_eof h1, isNumber]
  · have hpeek := peekC_of_last h1 h2
    have hstop := advanceUntil_stop (fun ch => ¬ isWhitespace ch) hpeek
      (by decide) (s.chars.length - s.offset)
    simp only [nextToken, CharStream.advanceUntil, hstop, reachedEnd_false h1,
      hpeek]
    simp [advanceC_peek_eof h1, isNumber]
  · have hpeek := peekC_of_last h1 h2
    have hstop := advanceUntil_stop (fun ch => ¬ isWhitespace ch) hpeek
      (by decide) (s.chars.length - s.offset)
    simp only [nextToken, CharStream.advanceUntil, hstop, reachedEnd_false h1,
      hpeek]
    simp [advanceC_peek_eof h1, isNumber]

/-- C9: witness — the sources `x:`, `x/` and `x.` with the cursor on
their final character. -/
theorem c9_witness :
    nextToken 1 ⟨['x', ':'], 1⟩ = some (.error (.charStreamError .endOfFile)) ∧
    nextToken 1 ⟨['x', '/'], 1⟩ = some (.error (.charStreamError .endOfFile)) ∧
    nextToken 1 ⟨['x', '.'], 1⟩ = some (.error (.charStreamError .endOfFile)) :=
  ⟨c9_trailing_lookahead_eof.1 ⟨['x', ':'], 1⟩ 0 rfl rfl,
   c9_trailing_lookahead_eof.2.1 ⟨['x', '/'], 1⟩ 0 rfl rfl,
   c9_trailing_lookahead_eof.2.2 ⟨['x', '.'], 1⟩ 0 rfl rfl⟩

/-- Helper: executing a statement that does not write variable `x`
leaves `x`'s binding unchanged (joint induction over the interpreter's
three mutually recursive functions). -/
theorem exec_frame_stmt (fc : FileContextSource) (x : String) :
    ∀ (a b : Nat) (stmt : Statement) (st : InterpState),
      ∀ st', stmtWritesVar x stmt = false →
        execStatement fc a b stmt st = some st' →
        lookupEnv st'.env x = lookupEnv st.env x := by
  refine execStatement.induct fc
    (fun a b stmt st => ∀ st', stmtWritesVar x stmt = false →
      execStatement fc a b stmt st = some st' →
      lookupEnv st'.env x = lookupEnv st.env x)
    (fun v run l st => ∀ st', (v = x → False) → blockWritesVar x run = false →
      execForLoop fc v run l st = some st' →
      lookupEnv st'.env x = lookupEnv st.env x)
    (fun run st => ∀ st', blockWritesVar x run = false →
      execBlock fc run st = some st' →
      lookupEnv st'.env x = lookupEnv st.env x)
    ?_ ?_ ?_ ?_ ?_ ?_ ?_ ?_ ?_ ?_ ?_ ?_ ?_ ?_ ?_
  · -- declare, some initialiser
    intro a b name typeOf st e st' hw hex
    simp [stmtWritesVar] at hw
    simp [execStatement] at hex
    obtain ⟨v, _, rfl⟩ := hex
    exact lookupEnv_cons_ne hw
  · -- declare, no initialiser
    intro a b name typeOf st st' hw hex
    simp [stmtWritesVar] at hw
    simp [execStatement] at hex
    subst hex
    exact lookupEnv_cons_ne hw
  · -- assign
    intro a b name e st st' hw hex
    simp [stmtWritesVar] at hw
    simp [execStatement, bind, Option.bind_eq_some] at hex
    obtain ⟨v, _, t, ⟨w, _⟩, rfl⟩ := hex
    exact lookupEnv_cons_ne hw
  · -- print
    intro a b e st st' _ hex
    simp [execStatement] at hex
    obtain ⟨v, _, rfl⟩ := hex
    rfl
  · -- read, empty input
    intro a b name st hinput st' hw hex
    simp [execStatement, hinput] at hex
  · -- read, input line available
    intro a b name st line rest hinput st' hw hex
    simp [stmtWritesVar] at hw
    simp [execStatement, hinput, bind, Option.bind_eq_some] at hex
    obtain ⟨t, ⟨w, hlook⟩, hex⟩ := hex
    cases t with
    | stringType =>
      simp at hex
      subst hex
      exact lookupEnv_cons_ne hw
    | intType =>
      simp [Option.bind_eq_some] at hex
      obtain ⟨i, _, rfl⟩ := hex
      exact lookupEnv_cons_ne hw
    | boolType => simp at hex
  · -- assert, true
    intro a b e st heval st' _ hex
    simp [execStatement, heval] at hex
    subst hex
    rfl
  · -- assert, false
    intro a b e st heval st' _ hex
    simp [execStatement, heval] at hex
    obtain ⟨q, _, rfl⟩ := hex
    rfl
  · -- assert, ill-typed (simp discharges every branch of the match)
    intro a b e st hnt hnf st' _ hex
    simp [execStatement] at hex
  · -- for, integer bounds
    intro a b v fromE toE run st iva ivb hto hfrom ih st' hw hex
    simp [stmtWritesVar] at hw
    simp [execStatement, hfrom, hto] at hex
    exact ih st' (fun hvx => hw.1 hvx) hw.2 hex
  · -- for, ill-typed bounds (unreachable; simp finds the contradiction)
    intro a b v fromE toE run st hbad st' hw hex
    simp [execStatement] at hex
  · -- loop, no more indices
    intro v run st st' _ _ hex
    simp [execForLoop] at hex
    subst hex
    rfl
  · -- loop, next index
    intro v run i rest st ihblock ihrest st' hvx hw hex
    simp [execForLoop, bind, Option.bind_eq_some] at hex
    obtain ⟨t, ⟨w, hlook⟩, st1, hblock, hrest⟩ := hex
    calc lookupEnv st'.env x
        = lookupEnv st1.env x := ihrest st1 st' hvx hw hrest
      _ = lookupEnv ((v, t, Value.intV i) :: st.env) x :=
          ihblock t st1 hw hblock
      _ = lookupEnv st.env x := lookupEnv_cons_ne (fun h => hvx h)
  · -- block, empty
    intro st st' _ hex
    simp [execBlock] at hex
    subst hex
    rfl
  · -- block, statement then rest
    intro a b stmt rest st ihstmt ihrest st' hw hex
    simp [blockWritesVar] at hw
    simp [execBlock, bind, Option.bind_eq_some] at hex
    obtain ⟨st1, hstmt, hrest⟩ := hex
    calc lookupEnv st'.env x
        = lookupEnv st1.env x := ihrest st1 st' hw.2 hrest
      _ = lookupEnv st.env x := ihstmt st1 hw.1 hstmt



/-- Helper: the frame property lifted to statement lists. -/
theorem exec_frame_block (fc : FileContextSource) (x : String)
    (run : List StatementWithCtx) (st st' : InterpState)
    (hw : blockWritesVar x run = false)
    (hex : execBlock fc run st = some st') :
    lookupEnv st'.env x = lookupEnv st.env x := by
  induction run generalizing st with
  | nil =>
    simp [execBlock] at hex
    subst hex
    rfl
  | cons hd tl ih =>
    obtain ⟨a, b, stmt⟩ := hd
    simp [blockWritesVar] at hw
    simp [execBlock, bind, Option.bind_eq_some] at hex
    obtain ⟨st1, h1, h2⟩ := hex
    calc lookupEnv st'.env x
        = lookupEnv st1.env x := ih st1 hw.2 h2
      _ = lookupEnv st.env x := exec_frame_stmt fc x a b stmt st st1 hw.1 h1

/-- C2: a declaration `var x : T;` without an initialiser binds `x` to
`T`'s default value (0, "", false), and a subsequent evaluation of
`Variable(x)` — immediately, or after any statements that do not write
`x` — yields that default value rather than failing. -/
theorem c2_declare_default (fc : FileContextSource) (a b : Nat)
    (name : String) (typeOf : TypeName) (st : InterpState) :
    execStatement fc a b (.declare name typeOf none) st =
      some { st with env := (name, typeOf, defaultValue typeOf) :: st.env } ∧
    evalExpr ((name, typeOf, defaultValue typeOf) :: st.env) (.var name) =
      some (defaultValue typeOf) ∧
    (∀ (stmts : List StatementWithCtx) (st2 : InterpState),
      blockWritesVar name stmts = false →
      execBlock fc stmts
        { st with env := (name, typeOf, defaultValue typeOf) :: st.env } =
        some st2 →
      evalExpr st2.env (.var name) = some (defaultValue typeOf)) := by
  refine ⟨by simp [execStatement], by simp [evalExpr, lookupEnv], ?_⟩
  intro stmts st2 hw hex
  have hpres := exec_frame_block fc name stmts _ st2 hw hex
  simp [evalExpr, hpres, lookupEnv]

/-- C2: witness — `var x : int;` in an empty state, followed by a
`print 7;` that leaves `x` untouched. -/
theorem c2_witness :
    execStatement ⟨[]⟩ 0 0 (.declare "x" .intType none) ⟨[], [], []⟩ =
      some ⟨[("x", .intType, .intV 0)], [], []⟩ ∧
    evalExpr [("x", .intType, .intV 0)] (.var "x") = some (.intV 0) ∧
    blockWritesVar "x" [(0, 0, .print (.literal (.intLit 7)))] = false ∧
    evalExpr [("x", .intType, .intV 0)] (.var "x") = some (.intV 0) := by
  have h := c2_declare_default ⟨[]⟩ 0 0 "x" .intType ⟨[], [], []⟩
  refine ⟨h.1, h.2.1, rfl, ?_⟩
  have hb : execBlock ⟨[]⟩ [(0, 0, .print (.literal (.intLit 7)))]
      ⟨[("x", .intType, .intV 0)], [], []⟩ =
      some ⟨[("x", .intType, .intV 0)], ["7"], []⟩ := by
    simp [execBlock, execStatement, evalExpr, bind, Value.display,
      LiteralValue.toValue]
    rfl
  exact h.2.2 [(0, 0, .print (.literal (.intLit 7)))]
    ⟨[("x", .intType, .intV 0)], ["7"], []⟩ rfl hb



/-- C6: a `Print` statement performs exactly one write whose content is
the display form of the evaluated value (decimal integers, raw string
characters, no trailing newline appended), and two consecutive prints
produce exactly two output chunks in source order. -/
theorem c6_print_no_newline (fc : FileContextSource) (st : InterpState) :
    (∀ (a b : Nat) (e : Expression) (v : Value),
      evalExpr st.env e = some v →
      execStatement fc a b (.print e) st =
        some { st with output := st.output ++ [v.display] }) ∧
    (∀ (a1 b1 a2 b2 : Nat) (e1 e2 : Expression) (v1 v2 : Value),
      evalExpr st.env e1 = some v1 → evalExpr st.env e2 = some v2 →
      execBlock fc [(a1, b1, .print e1), (a2, b2, .print e2)] st =
        some { st with output := st.output ++ [v1.display, v2.display] }) := by
  constructor
  · intro a b e v hv
    simp [execStatement, hv]
  · intro a1 b1 a2 b2 e1 e2 v1 v2 h1 h2
    simp [execBlock, execStatement, bind, h1, h2]

/-- C6: witness — `print "foo"; print 42;` produces the two chunks
`["foo", "42"]`. -/
theorem c6_witness :
    evalExpr ([] : List (String × TypeName × Value))
      (.literal (.stringLit "foo")) = some (.stringV "foo") ∧
    evalExpr ([] : List (String × TypeName × Value))
      (.literal (.intLit 42)) = some (.intV 42) ∧
    execBlock ⟨[]⟩
      [(0, 1, .print (.literal (.stringLit "foo"))),
       (2, 3, .print (.literal (.intLit 42)))] ⟨[], [], []⟩ =
      some ⟨[], ["foo", "42"], []⟩ := by
  refine ⟨rfl, rfl, ?_⟩
  have h := (c6_print_no_newline ⟨[]⟩ ⟨[], [], []⟩).2 0 1 2 3
    (.literal (.stringLit "foo")) (.literal (.intLit 42))
    (.stringV "foo") (.intV 42) rfl rfl
  simpa [Value.display] using h

/-- Helper: the number of loop iterations. -/
theorem rangeIncl_length (a b : Int) :
    (rangeIncl a b).length = (b + 1 - a).toNat := by
  rw [rangeIncl, List.length_map, List.length_range]

/-- Helper: for `a ≤ b` the loop runs `b - a + 1` times. -/
theorem rangeIncl_length_int {a b : Int} (h : a ≤ b) :
    ((rangeIncl a b).length : Int) = b - a + 1 := by
  rw [rangeIncl_length]
  omega

/-- Helper: for `b < a` the iteration range is empty. -/
theorem rangeIncl_nil {a b : Int} (h : b < a) : rangeIncl a b = [] := by
  have hz : (b + 1 - a).toNat = 0 := by omega
  rw [rangeIncl, hz]
  rfl

/-- Helper: the first index assigned is `a`. -/
theorem rangeIncl_head {a b : Int} (h : a ≤ b) :
    (rangeIncl a b).head? = some a := by
  have hn : (b + 1 - a).toNat = (b - a).toNat + 1 := by omega
  simp [rangeIncl, hn, List.range_succ_eq_map]

/-- Helper: the last index assigned is `b`. -/
theorem rangeIncl_getLast {a b : Int} (h : a ≤ b) :
    (rangeIncl a b).getLast? = some b := by
  have hn : (b + 1 - a).toNat = (b - a).toNat + 1 := by omega
  rw [rangeIncl, hn, List.range_succ, List.map_append]
  simp only [List.map_cons, List.map_nil]
  rw [List.getLast?_concat]
  congr 1
  omega

/-- Helper: the iteration indices are strictly ascending. -/
theorem rangeIncl_sorted (a b : Int) :
    (rangeIncl a b).Pairwise (· < ·) := by
  rw [rangeIncl]
  refine List.Pairwise.map _ ?_ (List.pairwise_lt_range (b + 1 - a).toNat)
  intro x y hxy
  show a + (x : Int) < a + (y : Int)
  omega

/-- Helper: a loop whose body does not write the loop variable leaves it
bound to the last assigned index. -/
theorem execForLoop_last (fc : FileContextSource) (v : String)
    (run : List StatementWithCtx) (hw : blockWritesVar v run = false) :
    ∀ (l : List Int) (lst : Int) (st st' : InterpState) (t : TypeName)
      (w : Value), l.getLast? = some lst →
      lookupEnv st.env v = some (t, w) →
      execForLoop fc v run l st = some st' →
      lookupEnv st'.env v = some (t, .intV lst) := by
  intro l
  induction l with
  | nil => intro lst st st' t w hlast; simp at hlast
  | cons i rest ih =>
    intro lst st st' t w hlast hlook hex
    simp [execForLoop, bind, Option.bind_eq_some] at hex
    obtain ⟨t', ⟨w', hlook'⟩, st1, hblock, hrest⟩ := hex
    have heq : some (t', w') = some (t, w) := hlook'.symm.trans hlook
    simp only [Option.some.injEq, Prod.mk.injEq] at heq
    obtain ⟨rfl, rfl⟩ := heq
    have hmid : lookupEnv st1.env v = some (t', .intV i) := by
      have hframe := exec_frame_block fc v run _ st1 hw hblock
      rw [hframe]
      simp [lookupEnv]
    cases rest with
    | nil =>
      simp at hlast
      subst hlast
      simp [execForLoop] at hrest
      subst hrest
      exact hmid
    | cons j rest' =>
      rw [List.getLast?_cons_cons] at hlast
      exact ih lst st1 st' t' (.intV i) hlast hmid hrest

/-- C5: a `For` statement whose bounds evaluate to integers `a` and `b`
iterates over the inclusive range `a..b`: if `a ≤ b` the body runs
exactly `b - a + 1` times with the loop variable assigned the strictly
ascending indices from `a` to `b` (so it holds `b` afterwards, provided
the body does not itself write the variable); if `a > b` the body runs
zero times and the state — hence the loop variable — is unchanged. -/
theorem c5_for_inclusive_range (fc : FileContextSource) (pa pb : Nat)
    (v : String) (fromE toE : Expression) (run : List StatementWithCtx)
    (st : InterpState) (a b : Int)
    (hfrom : evalExpr st.env fromE = some (.intV a))
    (hto : evalExpr st.env toE = some (.intV b)) :
    execStatement fc pa pb (.forS v fromE toE run) st =
      execForLoop fc v run (rangeIncl a b) st ∧
    (a ≤ b → ((rangeIncl a b).length : Int) = b - a + 1) ∧
    (a ≤ b → (rangeIncl a b).head? = some a ∧
      (rangeIncl a b).getLast? = some b) ∧
    (rangeIncl a b).Pairwise (· < ·) ∧
    (b < a → rangeIncl a b = [] ∧
      execStatement fc pa pb (.forS v fromE toE run) st = some st) ∧
    (a ≤ b → blockWritesVar v run = false →
      ∀ (st' : InterpState) (t : TypeName) (w : Value),
        lookupEnv st.env v = some (t, w) →
        execStatement fc pa pb (.forS v fromE toE run) st = some st' →
        lookupEnv st'.env v = some (t, .intV b)) := by
  have hunfold : execStatement fc pa pb (.forS v fromE toE run) st =
      execForLoop fc v run (rangeIncl a b) st := by
    simp [execStatement, hfrom, hto]
  refine ⟨hunfold, fun h => rangeIncl_length_int h,
    fun h => ⟨rangeIncl_head h, rangeIncl_getLast h⟩, rangeIncl_sorted a b,
    fun h => ⟨rangeIncl_nil h, ?_⟩, ?_⟩
  · rw [hunfold, rangeIncl_nil h]
    simp [execForLoop]
  · intro hle hw st' t w hlook hex
    rw [hunfold] at hex
    exact execForLoop_last fc v run hw (rangeIncl a b) b st st' t w
      (rangeIncl_getLast hle) hlook hex

/-- C5: witness — `for i in 1..3 do print i; end for;` runs the body 3
times leaving `i = 3`, and `for i in 3..1` runs it zero times leaving
the state untouched. -/
theorem c5_witness :
    ((rangeIncl 1 3).length : Int) = 3 ∧
    lookupEnv [("i", TypeName.intType, Value.intV 3),
      ("i", TypeName.intType, Value.intV 2),
      ("i", TypeName.intType, Value.intV 1),
      ("i", TypeName.intType, Value.intV 0)] "i" =
      some (TypeName.intType, Value.intV 3) ∧
    rangeIncl 3 1 = [] ∧
    execStatement ⟨[]⟩ 0 0
      (.forS "i" (.literal (.intLit 3)) (.literal (.intLit 1))
        [(0, 0, .print (.var "i"))])
      ⟨[("i", .intType, .intV 0)], [], []⟩ =
      some ⟨[("i", .intType, .intV 0)], [], []⟩ := by
  have hrun : execStatement ⟨[]⟩ 0 0
      (.forS "i" (.literal (.intLit 1)) (.literal (.intLit 3))
        [(0, 0, .print (.var "i"))])
      ⟨[("i", .intType, .intV 0)], [], []⟩ =
      some ⟨[("i", .intType, .intV 3), ("i", .intType, .intV 2),
             ("i", .intType, .intV 1), ("i", .intType, .intV 0)],
            ["1", "2", "3"], []⟩ := by
    simp [execStatement, execForLoop, execBlock, evalExpr,
      LiteralValue.toValue, Value.display, lookupEnv, bind, rangeIncl,
      List.range_succ]
    exact ⟨rfl, rfl, rfl⟩
  have h13 := c5_for_inclusive_range ⟨[]⟩ 0 0 "i"
    (.literal (.intLit 1)) (.literal (.intLit 3))
    [(0, 0, .print (.var "i"))] ⟨[("i", .intType, .intV 0)], [], []⟩
    1 3 rfl rfl
  have h31 := c5_for_inclusive_range ⟨[]⟩ 0 0 "i"
    (.literal (.intLit 3)) (.literal (.intLit 1))
    [(0, 0, .print (.var "i"))] ⟨[("i", .intType, .intV 0)], [], []⟩
    3 1 rfl rfl
  have hlen := h13.2.1 (by norm_num)
  have hlast := h13.2.2.2.2.2 (by norm_num) rfl
    ⟨[("i", .intType, .intV 3), ("i", .intType, .intV 2),
      ("i", .intType, .intV 1), ("i", .intType, .intV 0)],
      ["1", "2", "3"], []⟩ .intType (.intV 0) rfl hrun
  have hempty := h31.2.2.2.2.1 (by norm_num)
  refine ⟨by rw [hlen]; norm_num, hlast, hempty.1, hempty.2⟩



/-- C10: claimed — the interpreter computes the exclusive bound `to + 1`
in 32-bit arithmetic, so a loop up to `2^31 - 1` overflows and the body
does not run `b - a + 1` times.  The spec-modelled interpreter iterates
the inclusive range `from..to` and computes no `to + 1` bound, so no
overflow occurs.  Amended claim (proved): for every loop whose
to-expression evaluates to `2^31 - 1` and `from ≤ to`, the loop iterates
over `rangeIncl a (2^31 - 1)`, whose length is exactly `b - a + 1`. -/
theorem c10_no_bound_overflow (fc : FileContextSource) (pa pb : Nat)
    (v : String) (fromE toE : Expression) (run : List StatementWithCtx)
    (st : InterpState) (a : Int)
    (hfrom : evalExpr st.env fromE = some (.intV a))
    (hto : evalExpr st.env toE = some (.intV 2147483647))
    (h : a ≤ 2147483647) :
    execStatement fc pa pb (.forS v fromE toE run) st =
      execForLoop fc v run (rangeIncl a 2147483647) st ∧
    ((rangeIncl a 2147483647).length : Int) = 2147483647 - a + 1 := by
  exact ⟨by simp [execStatement, hfrom, hto], rangeIncl_length_int h⟩

/-- C10: counterexample to the claim as stated — with
`from = to = 2^31 - 1` the iteration range is the singleton
`[2147483647]` and the body executes exactly once (`b - a + 1 = 1`
times), printing the loop variable's value; the range does not become
empty. -/
theorem c10_counterexample :
    rangeIncl 2147483647 2147483647 = [2147483647] ∧
    execStatement ⟨[]⟩ 0 0
      (.forS "i" (.literal (.intLit 2147483647))
        (.literal (.intLit 2147483647)) [(0, 0, .print (.var "i"))])
      ⟨[("i", .intType, .intV 0)], [], []⟩ =
      some ⟨[("i", .intType, .intV 2147483647), ("i", .intType, .intV 0)],
            ["2147483647"], []⟩ := by
  constructor
  · simp [rangeIncl, List.range_succ]
  · simp [execStatement, execForLoop, execBlock, evalExpr,
      LiteralValue.toValue, Value.display, lookupEnv, bind, rangeIncl,
      List.range_succ]
    rfl

/-- C10: witness — the amended theorem applied at
`from = to = 2^31 - 1`. -/
theorem c10_witness :
    execStatement ⟨[]⟩ 0 0
      (.forS "i" (.literal (.intLit 2147483647))
        (.literal (.intLit 2147483647)) [(0, 0, .print (.var "i"))])
      ⟨[("i", .intType, .intV 0)], [], []⟩ =
      execForLoop ⟨[]⟩ "i" [(0, 0, .print (.var "i"))]
        (rangeIncl 2147483647 2147483647)
        ⟨[("i", .intType, .intV 0)], [], []⟩ ∧
    ((rangeIncl 2147483647 2147483647).length : Int) = 1 := by
  have h := c10_no_bound_overflow ⟨[]⟩ 0 0 "i"
    (.literal (.intLit 2147483647)) (.literal (.intLit 2147483647))
    [(0, 0, .print (.var "i"))] ⟨[("i", .intType, .intV 0)], [], []⟩
    2147483647 rfl rfl (by norm_num)
  exact ⟨h.1, by rw [h.2]; norm_num⟩

/-- Helper: the accumulator fold of `get_source_quote` concatenates,
per covered line, the prefix `"[NNNN]  "` (right-aligned row number),
the line text and a terminating LF, with rows counted up from the start
row. -/
theorem quoteFold_eq (ls : List String) :
    ∀ (row : Nat) (acc : String),
    quoteFold ls row acc =
      acc ++ (List.zipWith
        (fun x r => "[" ++ padRow r ++ "]  " ++ x ++ "\n")
        ls (List.range' row ls.length)).foldr (· ++ ·) "" := by
  induction ls with
  | nil => intro row acc; simp [quoteFold]
  | cons x rest ih =>
    intro row acc
    rw [quoteFold, ih (row + 1) _]
    simp [List.range'_succ, String.append_assoc]

/-- C3: an `Assert` whose expression evaluates to `true` writes nothing;
on `false` it performs one write of `"ASSERTION FAILED:\n"` followed by
the bracketed quoted source of the statement's offset range, where the
quote is, for each source line covering the range, `"["` + the
right-aligned 4-character row number + `"]  "` + the line + LF. -/
theorem c3_assert (fc : FileContextSource) (a b : Nat) (e : Expression)
    (st : InterpState) :
    (evalExpr st.env e = some (.boolV true) →
      execStatement fc a b (.assert e) st = some st) ∧
    (∀ q, evalExpr st.env e = some (.boolV false) →
      fc.getSourceQuote a b = some q →
      execStatement fc a b (.assert e) st =
        some { st with output := st.output ++ ["ASSERTION FAILED:\n" ++ q] }) ∧
    (∀ (sr : FilePosition) (ls : List String),
      fc.decodeOffset a = some sr → fc.getRangeLines a b = some ls →
      fc.getSourceQuote a b = some ((List.zipWith
        (fun x r => "[" ++ padRow r ++ "]  " ++ x ++ "\n")
        ls (List.range' sr.row ls.length)).foldr (· ++ ·) "")) := by
  refine ⟨?_, ?_, ?_⟩
  · intro htrue
    simp [execStatement, htrue]
  · intro q hfalse hq
    simp [execStatement, hfalse, hq]
  · intro sr ls hdec hlines
    simp [FileContextSource.getSourceQuote, hdec, hlines, bind,
      Option.bind_eq_some]
    rw [quoteFold_eq]
    simp

/-- C3: witness — `assert x;` on row 2 of a two-line file: `true` leaves
the output untouched; `false` appends exactly
`"ASSERTION FAILED:\n[   2]  assert x;\n"`. -/
theorem c3_witness :
    evalExpr [("x", TypeName.boolType, Value.boolV true)] (.var "x") =
      some (.boolV true) ∧
    execStatement ⟨[(0, "print 1;"), (9, "assert x;")]⟩ 9 18
      (.assert (.var "x"))
      ⟨[("x", .boolType, .boolV true)], [], []⟩ =
      some ⟨[("x", .boolType, .boolV true)], [], []⟩ ∧
    FileContextSource.getSourceQuote ⟨[(0, "print 1;"), (9, "assert x;")]⟩
      9 18 = some "[   2]  assert x;\n" ∧
    execStatement ⟨[(0, "print 1;"), (9, "assert x;")]⟩ 9 18
      (.assert (.var "x"))
      ⟨[("x", .boolType, .boolV false)], [], []⟩ =
      some ⟨[("x", .boolType, .boolV false)],
        ["ASSERTION FAILED:\n[   2]  assert x;\n"], []⟩ := by
  have h1 := (c3_assert ⟨[(0, "print 1;"), (9, "assert x;")]⟩
    9 18 (.var "x") ⟨[("x", .boolType, .boolV true)], [], []⟩).1 rfl
  have hq0 := (c3_assert ⟨[(0, "print 1;"), (9, "assert x;")]⟩ 9 18
      (.var "x") ⟨[("x", .boolType, .boolV false)], [], []⟩).2.2
      ⟨9, 1, 2⟩ ["assert x;"] rfl rfl
  have hq : FileContextSource.getSourceQuote
      ⟨[(0, "print 1;"), (9, "assert x;")]⟩ 9 18 =
      some "[   2]  assert x;\n" := by
    rw [hq0]
    rfl
  have h2 := (c3_assert ⟨[(0, "print 1;"), (9, "assert x;")]⟩
    9 18 (.var "x") ⟨[("x", .boolType, .boolV false)], [], []⟩).2.1
    "[   2]  assert x;\n" rfl hq
  exact ⟨rfl, h1, hq, h2⟩

/-- Helper: association-list lookup over an append. -/
theorem lookupAssoc_append {α : Type} (l1 l2 : List (String × α))
    (name : String) :
    lookupAssoc (l1 ++ l2) name =
      (lookupAssoc l1 name).or (lookupAssoc l2 name) := by
  induction l1 with
  | nil => simp [lookupAssoc]
  | cons hd tl ih =>
    obtain ⟨n, a⟩ := hd
    by_cases h : n = name
    · simp [lookupAssoc, h]
    · simp [lookupAssoc, h, ih]

/-- Helper: the visible-symbols lookup finds `name` exactly when some
scope on the parent chain binds it. -/
theorem getSymbol_iff_boundOnChain (t : ScopeTree) (name : String) :
    ∀ (fuel : Nat) (key : Nat),
      (lookupAssoc (symbolsInScope t fuel key) name).isSome =
        (symbolOwner t fuel key name).isSome := by
  intro fuel
  induction fuel with
  | zero => intro key; simp [symbolsInScope, symbolOwner, lookupAssoc]
  | succ f ih =>
    intro key
    rw [symbolsInScope, symbolOwner]
    cases hfind : t.findScope key with
    | none => simp [lookupAssoc]
    | some sc =>
      cases hpar : sc.getParentKey with
      | none =>
        simp only [hpar]
        cases hown : lookupAssoc sc.symbols name <;> simp [hown]
      | some parent =>
        simp only [hpar, lookupAssoc_append]
        cases hown : lookupAssoc sc.symbols name <;>
          simp [hown, ih parent]

/-- Helper: `ScopeTree::get_symbol` succeeds exactly when `name` is
bound in the scope or in an ancestor on the visible chain. -/
theorem c7_chain : ∀ (t : ScopeTree) (scope : Nat) (name : String),
    (t.getSymbol scope name).isSome = boundOnChain t scope name := by
  intro t scope name
  rw [ScopeTree.getSymbol, boundOnChain, getSymbol_iff_boundOnChain]



/-- Helper: expression type checking never reports
`RedeclaredIdentifier`. -/
theorem evalType_ne_redeclared (ctx : ScopeTree) (scope : Nat) :
    ∀ (e : Expression) (n : String),
      evaluateExpressionType ctx scope e ≠ .error (.redeclaredIdentifier n) := by
  intro e
  induction e with
  | literal v => intro n; simp [evaluateExpressionType]
  | var v =>
    intro n
    simp [evaluateExpressionType, evaluateVariableType]
    split <;> simp
  | binaryOp op l r ihl ihr =>
    intro n h
    rw [evaluateExpressionType] at h
    rcases hl : evaluateExpressionType ctx scope l with eL | tL
    · rw [hl] at h
      simp [bind, Except.bind] at h
      exact ihl n (by rw [hl, h])
    · rcases hr : evaluateExpressionType ctx scope r with eR | tR
      · rw [hl, hr] at h
        simp [bind, Except.bind] at h
        exact ihr n (by rw [hr, h])
      · rw [hl, hr] at h
        simp [bind, Except.bind] at h
        rcases op <;> rcases tL <;> rcases tR <;> simp_all
  | unaryOp op p ih =>
    intro n h
    rw [evaluateExpressionType] at h
    rcases hp : evaluateExpressionType ctx scope p with eP | tP
    · rw [hp] at h
      simp [bind, Except.bind] at h
      exact ih n (by rw [hp, h])
    · rw [hp] at h
      simp [bind, Except.bind] at h
      rcases op
      rcases tP <;> simp_all

/-- Helper: after `define_symbol`, the scope's own table starts with the
new binding. -/
theorem findScope_defineSymbol (t : ScopeTree) (scope : Nat) (name : String)
    (sym : Symbol) (sc : Scope) (hsc : t.findScope scope = some sc) :
    (t.defineSymbol scope name sym).findScope scope =
      some ⟨sc.key, sc.parent,
        (name, sym) :: sc.symbols.filter (fun p => ¬ p.1 = name)⟩ := by
  obtain ⟨scopes, nid⟩ := t
  rw [ScopeTree.findScope] at hsc
  rw [ScopeTree.defineSymbol, ScopeTree.findScope]
  simp only []
  induction scopes with
  | nil => simp [findScopeAux] at hsc
  | cons hd tl ih =>
    obtain ⟨k, sck⟩ := hd
    by_cases hk : k = scope
    · subst hk
      simp [findScopeAux] at hsc ⊢
      subst hsc
      simp [defineSymbolAux, findScopeAux]
    · simp [findScopeAux, hk] at hsc ⊢
      simp [defineSymbolAux, findScopeAux, hk]
      simpa [decide_not] using ih hsc

/-- C7: type checking `Declare{name, type, initial?}` in scope `S`
reports `RedeclaredIdentifier(name)` exactly when `name` is already
bound in `S` or in an ancestor scope on the visible chain; otherwise,
once the optional initialiser checks against the declared type, the
symbol is defined in `S` with `mutable = true`. -/
theorem c7_declare_redeclaration (ctx : ScopeTree) (scope : Nat)
    (name : String) (typeOf : TypeName) (initial : Option Expression) :
    ((ctx.getSymbol scope name).isSome = boundOnChain ctx scope name) ∧
    (typeCheckStatement ctx scope (.declare name typeOf initial) =
        some (.error (.redeclaredIdentifier name)) ↔
      boundOnChain ctx scope name = true) ∧
    (boundOnChain ctx scope name = false →
      (initial = none ∨
        ∃ iv, initial = some iv ∧
          evaluateExpressionType ctx scope iv = .ok typeOf) →
      typeCheckStatement ctx scope (.declare name typeOf initial) =
        some (.ok (ctx.defineSymbol scope name ⟨typeOf, true⟩)) ∧
      ∀ sc, ctx.findScope scope = some sc →
        ∃ sc', (ctx.defineSymbol scope name ⟨typeOf, true⟩).findScope scope =
            some sc' ∧ lookupAssoc sc'.symbols name = some ⟨typeOf, true⟩) := by
  have hchain := c7_chain ctx scope name
  refine ⟨hchain, ?_, ?_⟩
  · constructor
    · intro h
      by_contra hnb
      have hns : (ctx.getSymbol scope name).isSome = false := by
        rw [hchain]
        exact eq_false_of_ne_true hnb
      simp only [typeCheckStatement] at h
      rw [if_neg (by simp [hns])] at h
      cases initial with
      | none => simp at h
      | some iv =>
        rcases hiv : evaluateExpressionType ctx scope iv with eI | tI
        · simp [hiv] at h
          exact evalType_ne_redeclared ctx scope iv name (by rw [hiv, h])
        · rcases hteq : assertTypesEqual typeOf tI with _ | eT
          · simp [hiv, hteq] at h
            simp [assertTypesEqual] at hteq
            split at hteq <;> simp_all
          · simp [hiv, hteq] at h
    · intro h
      have hs : (ctx.getSymbol scope name).isSome = true := by rw [hchain, h]
      simp only [typeCheckStatement]
      rw [if_pos (by simp_all)]
  · intro hnb hinit
    have hns : (ctx.getSymbol scope name).isSome = false := by rw [hchain, hnb]
    have hdef : typeCheckStatement ctx scope (.declare name typeOf initial) =
        some (.ok (ctx.defineSymbol scope name ⟨typeOf, true⟩)) := by
      simp only [typeCheckStatement]
      rw [if_neg (by simp [hns])]
      rcases hinit with rfl | ⟨iv, rfl, hok⟩
      · rfl
      · simp [hok, assertTypesEqual]
    refine ⟨hdef, ?_⟩
    intro sc hsc
    exact ⟨⟨sc.key, sc.parent,
      (name, ⟨typeOf, true⟩) :: sc.symbols.filter (fun p => ¬ p.1 = name)⟩,
      findScope_defineSymbol ctx scope name ⟨typeOf, true⟩ sc hsc,
      by simp [lookupAssoc]⟩



/-- C7: witness — in a tree where the global scope binds `x` and scope 1
is its child, declaring `x` in scope 1 is a redeclaration (bound via the
ancestor), while declaring `y` succeeds and defines it mutable in
scope 1. -/
theorem c7_witness :
    boundOnChain ⟨[(0, ⟨0, 0, [("x", ⟨.intType, true⟩)]⟩),
      (1, ⟨1, 0, []⟩)], 2⟩ 1 "x" = true ∧
    typeCheckStatement ⟨[(0, ⟨0, 0, [("x", ⟨.intType, true⟩)]⟩),
      (1, ⟨1, 0, []⟩)], 2⟩ 1 (.declare "x" .intType none) =
      some (.error (.redeclaredIdentifier "x")) ∧
    boundOnChain ⟨[(0, ⟨0, 0, [("x", ⟨.intType, true⟩)]⟩),
      (1, ⟨1, 0, []⟩)], 2⟩ 1 "y" = false ∧
    typeCheckStatement ⟨[(0, ⟨0, 0, [("x", ⟨.intType, true⟩)]⟩),
      (1, ⟨1, 0, []⟩)], 2⟩ 1 (.declare "y" .boolType none) =
      some (.ok (ScopeTree.defineSymbol
        ⟨[(0, ⟨0, 0, [("x", ⟨.intType, true⟩)]⟩), (1, ⟨1, 0, []⟩)], 2⟩
        1 "y" ⟨.boolType, true⟩)) ∧
    ∃ sc', (ScopeTree.defineSymbol
        ⟨[(0, ⟨0, 0, [("x", ⟨.intType, true⟩)]⟩), (1, ⟨1, 0, []⟩)], 2⟩
        1 "y" ⟨.boolType, true⟩).findScope 1 = some sc' ∧
      lookupAssoc sc'.symbols "y" = some ⟨.boolType, true⟩ := by
  have h1 := c7_declare_redeclaration
    ⟨[(0, ⟨0, 0, [("x", ⟨.intType, true⟩)]⟩), (1, ⟨1, 0, []⟩)], 2⟩
    1 "x" .intType none
  have h2 := c7_declare_redeclaration
    ⟨[(0, ⟨0, 0, [("x", ⟨.intType, true⟩)]⟩), (1, ⟨1, 0, []⟩)], 2⟩
    1 "y" .boolType none
  refine ⟨rfl, h1.2.1.mpr rfl, rfl, (h2.2.2 rfl (Or.inl rfl)).1,
    (h2.2.2 rfl (Or.inl rfl)).2 ⟨1, 0, []⟩ rfl⟩


/- ### C8: parser error recovery -/

set_option maxHeartbeats 1000000 in
/-- Helper: `parse_for` only propagates non-empty error lists, assuming the
same of `parse_statement_list` at the given fuel. -/
theorem pfor_err_aux (f : Nat)
    (hpsl : ∀ (s : TokStream) (es : List PErr) (s' : TokStream),
      parseStatementList f s = some (.error es, s') → es ≠ []) :
    ∀ (s : TokStream) (es : List PErr) (s' : TokStream),
      parseFor f s = some (.error es, s') → es ≠ [] := by
  intro s es s' h
  rw [parseFor] at h
  repeat' split at h
  all_goals (try simp at h)
  all_goals (obtain ⟨h1, h2⟩ := h; subst h1)
  all_goals (first | (apply hpsl; assumption) | simp)

set_option maxHeartbeats 1000000 in
/-- Helper: `parse_statement` only propagates non-empty error lists,
assuming the same of `parse_for` at the given fuel. -/
theorem pstmt_err_aux (f : Nat)
    (hpfor : ∀ (s : TokStream) (es : List PErr) (s' : TokStream),
      parseFor f s = some (.error es, s') → es ≠ []) :
    ∀ (s : TokStream) (es : List PErr) (s' : TokStream),
      parseStatement f s = some (.error es, s') → es ≠ [] := by
  intro s es s' h
  rw [parseStatement] at h
  repeat' split at h
  all_goals (try simp at h)
  all_goals (try (obtain ⟨h1, h2⟩ := h; subst h1))
  all_goals (first | (apply hpfor; assumption) | simp)

set_option maxHeartbeats 1000000 in
/-- Helper: whenever `parse_statement_list` returns an `Err`, the recorded
error list is non-empty. -/
theorem psl_err_ne_nil :
    ∀ (fuel : Nat) (s : TokStream) (es : List PErr) (s' : TokStream),
      parseStatementList fuel s = some (.error es, s') → es ≠ [] := by
  intro fuel
  induction fuel with
  | zero => intro s es s' h; simp [parseStatementList] at h
  | succ f ih =>
    have hstmt := pstmt_err_aux f (pfor_err_aux f ih)
    intro s es s' h
    rw [parseStatementList] at h
    repeat' split at h
    all_goals (try simp at h)
    all_goals (try (obtain ⟨h1, h2⟩ := h; subst h1))
    all_goals (first | (apply hstmt; assumption) | (apply ih; assumption) | simp)

set_option maxHeartbeats 1000000 in
/-- Helper: whenever `parse` returns an `Err`, the accumulated error list is
non-empty (so once an error is recorded the overall result stays `Err`). -/
theorem pprog_err_ne_nil :
    ∀ (fuel : Nat) (s : TokStream) (es : List PErr) (s' : TokStream),
      parseProgram fuel s = some (.error es, s') → es ≠ [] := by
  intro fuel
  induction fuel with
  | zero => intro s es s' h; simp [parseProgram] at h
  | succ f ih =>
    intro s es s' h
    rw [parseProgram] at h
    repeat' split at h
    all_goals (try simp at h)
    all_goals (try (obtain ⟨h1, h2⟩ := h; subst h1))
    all_goals
      (first
        | (apply psl_err_ne_nil; assumption)
        | (apply ih; assumption)
        | (intro hx; simp only [List.append_eq_nil] at hx;
            refine absurd hx.1 ?_; apply psl_err_ne_nil; assumption)
        | simp)

/-- Helper: `try_recover` skips every token up to the first `Semicolon`,
consumes it, and reports success. -/
theorem tryRecover_found :
    ∀ (pre : List (TokenWithCtx × Nat)) (t : TokenWithCtx) (te : Nat)
      (post : List (TokenWithCtx × Nat)) (tl : StreamTail) (le : Nat),
      t.token = .semicolon →
      (∀ p, p ∈ pre → p.1.token ≠ .semicolon ∧ p.1.token ≠ .endOfFile) →
      tryRecover ⟨pre ++ (t, te) :: post, tl, le⟩ = (true, ⟨post, tl, te⟩) := by
  intro pre
  induction pre with
  | nil =>
    intro t te post tl le ht _
    simp [tryRecover, ht]
  | cons hd rest ih =>
    intro t te post tl le ht hpre
    obtain ⟨⟨hoff, htok⟩, hte⟩ := hd
    have hhd := hpre _ (List.mem_cons_self _ _)
    rw [List.cons_append, tryRecover]
    simp only []
    split
    · exact absurd rfl hhd.1
    · exact absurd rfl hhd.2
    · exact ih t te post tl hte ht
        (fun p hp => hpre p (List.mem_cons_of_mem _ hp))

/-- Helper: if no `Semicolon` (or explicit `EndOfFile` token) remains,
`try_recover` consumes the whole stream and reports failure, so parsing
stops. -/
theorem tryRecover_none :
    ∀ (toks : List (TokenWithCtx × Nat)) (tl : StreamTail) (le : Nat),
      (∀ p, p ∈ toks → p.1.token ≠ .semicolon ∧ p.1.token ≠ .endOfFile) →
      tryRecover ⟨toks, tl, le⟩ =
        (false, ⟨[], tl, (toks.map Prod.snd).getLastD le⟩) := by
  intro toks
  induction toks with
  | nil => intro tl le _; simp [tryRecover]
  | cons hd rest ih =>
    intro tl le hpre
    obtain ⟨⟨hoff, htok⟩, hte⟩ := hd
    have hhd := hpre _ (List.mem_cons_self _ _)
    rw [tryRecover]
    simp only []
    split
    · exact absurd rfl hhd.1
    · exact absurd rfl hhd.2
    · rw [ih tl hte (fun p hp => hpre p (List.mem_cons_of_mem _ hp)),
        List.map_cons, List.getLastD_cons]

/-- Helper: when `parse_statement_list` fails, `parse` records the errors,
calls `try_recover`, and on success re-runs itself on the recovered stream,
appending any further errors; on failure it returns the recorded errors. -/
theorem pprog_recovery (f : Nat) (s : TokStream) (es : List PErr)
    (s' : TokStream)
    (h : parseStatementList (f + 1) s = some (.error es, s')) :
    parseProgram (f + 1) s =
      (match tryRecover s' with
        | (true, s'') =>
          match parseProgram f s'' with
          | none => none
          | some (.ok _, s''') => some (.error es, s''')
          | some (.error inner, s''') => some (.error (es ++ inner), s''')
        | (false, s'') => some (.error es, s'')) := by
  rw [parseProgram, h]

/-- Helper: on the token stream of `print ; print 1 ;`, the first statement
fails with `InvalidBinaryExpression` and the stream is left at the bad
semicolon. -/
theorem c8_psl_concrete :
    parseStatementList 5
      ⟨[(⟨0, .print⟩, 5), (⟨6, .semicolon⟩, 7), (⟨8, .print⟩, 13),
        (⟨14, .literal (.intLit 1)⟩, 15), (⟨16, .semicolon⟩, 17)],
        .eof 17, 0⟩ =
      some (.error [⟨.invalidBinaryExpression, 6⟩],
        ⟨[(⟨6, .semicolon⟩, 7), (⟨8, .print⟩, 13),
          (⟨14, .literal (.intLit 1)⟩, 15), (⟨16, .semicolon⟩, 17)],
          .eof 17, 5⟩) := by
  simp [parseStatementList, parseStatement, parsePrintStatement, expectEq,
    parseExpression, shuntLoop, drainOps, TokStream.peek, TokStream.advanceT,
    TokStream.offsetT, Token.getKind]

/-- C8: on a statement-level parse error, `Parser::parse` records the error
and recovers: (1) every `Err` result of `parse` carries a non-empty error
list, so once an error is recorded the overall result is always `Err`;
(2) after a failed `parse_statement_list`, `parse` runs `try_recover` and,
if it succeeds, resumes parsing on the recovered stream, appending any
further errors to the recorded ones; (3) `try_recover` skips tokens up to
and including the next `Semicolon`; (4) if no `Semicolon` or `EndOfFile`
token remains, `try_recover` fails and parsing stops with the recorded
errors. -/
theorem c8_error_recovery :
    (∀ (fuel : Nat) (s : TokStream) (es : List PErr) (s' : TokStream),
      parseProgram fuel s = some (.error es, s') → es ≠ []) ∧
    (∀ (f : Nat) (s : TokStream) (es : List PErr) (s' : TokStream),
      parseStatementList (f + 1) s = some (.error es, s') →
      parseProgram (f + 1) s =
        (match tryRecover s' with
          | (true, s'') =>
            match parseProgram f s'' with
            | none => none
            | some (.ok _, s''') => some (.error es, s''')
            | some (.error inner, s''') => some (.error (es ++ inner), s''')
          | (false, s'') => some (.error es, s''))) ∧
    (∀ (pre : List (TokenWithCtx × Nat)) (t : TokenWithCtx) (te : Nat)
      (post : List (TokenWithCtx × Nat)) (tl : StreamTail) (le : Nat),
      t.token = .semicolon →
      (∀ p, p ∈ pre → p.1.token ≠ .semicolon ∧ p.1.token ≠ .endOfFile) →
      tryRecover ⟨pre ++ (t, te) :: post, tl, le⟩ = (true, ⟨post, tl, te⟩)) ∧
    (∀ (toks : List (TokenWithCtx × Nat)) (tl : StreamTail) (le : Nat),
      (∀ p, p ∈ toks → p.1.token ≠ .semicolon ∧ p.1.token ≠ .endOfFile) →
      tryRecover ⟨toks, tl, le⟩ =
        (false, ⟨[], tl, (toks.map Prod.snd).getLastD le⟩)) :=
  ⟨pprog_err_ne_nil, pprog_recovery, tryRecover_found, tryRecover_none⟩

/-- C8: witness — parsing `print ; print 1 ;` records
`InvalidBinaryExpression` at offset 6, recovers past that semicolon,
successfully parses `print 1;`, and still returns `Err` with the recorded
(non-empty) error list. -/
theorem c8_witness :
    parseProgram 5
      ⟨[(⟨0, .print⟩, 5), (⟨6, .semicolon⟩, 7), (⟨8, .print⟩, 13),
        (⟨14, .literal (.intLit 1)⟩, 15), (⟨16, .semicolon⟩, 17)],
        .eof 17, 0⟩ =
      some (.error [⟨.invalidBinaryExpression, 6⟩], ⟨[], .eof 17, 17⟩) ∧
    ([⟨.invalidBinaryExpression, 6⟩] : List PErr) ≠ [] ∧
    tryRecover ⟨[(⟨6, .semicolon⟩, 7), (⟨8, .print⟩, 13),
      (⟨14, .literal (.intLit 1)⟩, 15), (⟨16, .semicolon⟩, 17)], .eof 17, 5⟩ =
      (true, ⟨[(⟨8, .print⟩, 13), (⟨14, .literal (.intLit 1)⟩, 15),
        (⟨16, .semicolon⟩, 17)], .eof 17, 7⟩) := by
  have hrec := c8_error_recovery.2.2.1 []
    ⟨6, .semicolon⟩ 7
    [(⟨8, .print⟩, 13), (⟨14, .literal (.intLit 1)⟩, 15),
      (⟨16, .semicolon⟩, 17)] (.eof 17) 5 rfl (by simp)
  have hshape := c8_error_recovery.2.1 4
    ⟨[(⟨0, .print⟩, 5), (⟨6, .semicolon⟩, 7), (⟨8, .print⟩, 13),
      (⟨14, .literal (.intLit 1)⟩, 15), (⟨16, .semicolon⟩, 17)],
      .eof 17, 0⟩
    [⟨.invalidBinaryExpression, 6⟩]
    ⟨[(⟨6, .semicolon⟩, 7), (⟨8, .print⟩, 13),
      (⟨14, .literal (.intLit 1)⟩, 15), (⟨16, .semicolon⟩, 17)],
      .eof 17, 5⟩ c8_psl_concrete
  rw [List.nil_append] at hrec
  have hinner : parseProgram 4
      ⟨[(⟨8, .print⟩, 13), (⟨14, .literal (.intLit 1)⟩, 15),
        (⟨16, .semicolon⟩, 17)], .eof 17, 7⟩ =
      some (.ok [(8, 17, .print (.literal (.intLit 1)))], ⟨[], .eof 17, 17⟩) := by
    simp [parseProgram, parseStatementList, parseStatement,
      parsePrintStatement, expectEq, parseExpression, shuntLoop, drainOps,
      TokStream.peek, TokStream.advanceT, TokStream.offsetT, Token.getKind]
  simp only [hrec, hinner] at hshape
  refine ⟨hshape, ?_, hrec⟩
  exact c8_error_recovery.1 5 _ _ _ hshape


end MiniPL
